import Mathlib

/-!
Verification development for the ccllvmlox tree-walking Lox interpreter.

The definitions below are a shallow embedding of the C++ sources:
  src/frontend/Scanner.cpp, src/frontend/Parser.cpp, src/frontend/Resolver.cpp,
  src/Lox/Interpreter.cpp, src/Lox/Envitonment.cpp, src/Lox/LoxObject.cpp,
  src/Lox/LoxFunction.cpp, src/Lox/LoxClass.cpp, src/Lox/LoxInstance.cpp
together with the headers under src/include.  Machine integers and sizes are
modelled as Nat/Int; the C++ runtime number type is IEEE-754 double, modelled
here by the exact carrier Rat (no settled claim exercises numeric rounding,
division by zero, or numeric formatting).  Fallible operations return explicit
result types; the mutable interpreter state (environment chain, instance heap,
call-depth counter, stdout) is threaded explicitly.  Recursion that is not
structurally decreasing in the source uses an explicit fuel parameter.
-/

namespace Lox

/-- Token kinds, mirroring enum TokenType in src/include/frontend/Token.h. -/
inductive TokenType where
  | LEFT_PAREN | RIGHT_PAREN | LEFT_BRACE | RIGHT_BRACE
  | COMMA | DOT | MINUS | PLUS | SEMICOLON | SLASH | STAR
  | BANG | BANG_EQUAL | EQUAL | EQUAL_EQUAL
  | GREATER | GREATER_EQUAL | LESS | LESS_EQUAL
  | IDENTIFIER | STRING | NUMBER
  | AND | CLASS | ELSE | FALSE | FUN | FOR | IF | NIL | OR
  | PRINT | RETURN | SUPER | THIS | TRUE | VAR | WHILE
  | LoxEOF
  deriving DecidableEq, Repr

/-- Token literal: C++ `std::variant<std::nullptr_t, std::string_view, double, bool>`
(src/include/frontend/Token.h line 65), alternatives in the C++ order.  The
double alternative uses the exact carrier Rat (see the file comment). -/
inductive Lit where
  | lnil
  | lstr (s : String)
  | lnum (n : Rat)
  | lbool (b : Bool)
  deriving DecidableEq, Repr

/-- A token: kind, lexeme, literal and 1-based line (class Token in Token.h). -/
structure Token where
  type : TokenType
  lexeme : String
  literal : Lit
  line : Nat
  deriving DecidableEq, Repr

namespace Scanner

/-- Scanner state (class Scanner, src/include/frontend/Sanner.h): the source
characters, the `start`/`current` cursors, the 1-based line counter, the tokens
emitted so far, and the (line, message) pairs reported through `error`. -/
structure St where
  source : List Char
  start : Nat
  current : Nat
  line : Nat
  tokens : List Token
  errors : List (Nat × String)
  deriving Repr

/-- Scanner::isAtEnd: `current >= source.length()`. -/
def isAtEnd (s : St) : Bool := s.source.length ≤ s.current

/-- Scanner::advance: return the character at `current` and move past it.
The C++ indexes without a bounds check; callers only invoke it in bounds, and
the model supplies NUL out of bounds. -/
def advance (s : St) : Char × St :=
  (s.source.getD s.current '\x00', { s with current := s.current + 1 })

/-- Scanner::peek: current character, or NUL at end of input. -/
def peek (s : St) : Char :=
  if isAtEnd s then '\x00' else s.source.getD s.current '\x00'

/-- Scanner::peekNext: character after `current`, or NUL past the end. -/
def peekNext (s : St) : Char :=
  if s.source.length ≤ s.current + 1 then '\x00' else s.source.getD (s.current + 1) '\x00'

/-- Scanner::match: consume `current` only if it equals the expected character. -/
def matchChar (s : St) (expected : Char) : Bool × St :=
  if isAtEnd s then (false, s)
  else if s.source.getD s.current '\x00' ≠ expected then (false, s)
  else (true, { s with current := s.current + 1 })

/-- The lexeme `source.substr(start, current - start)` of the token being built. -/
def lexemeOf (s : St) : String :=
  String.mk ((s.source.drop s.start).take (s.current - s.start))

/-- Scanner::addToken(type, literal): append a token with the current lexeme. -/
def addTokenLit (s : St) (type : TokenType) (lit : Lit) : St :=
  { s with tokens := s.tokens ++ [⟨type, lexemeOf s, lit, s.line⟩] }

/-- Scanner::addToken(type): the literal defaults to the empty string, which the
C++ converts into the string_view alternative of the Literal variant. -/
def addToken (s : St) (type : TokenType) : St :=
  addTokenLit s type (.lstr "")

/-- Scanner::keywords: the 16 reserved words (Scanner.cpp lines 8-12). -/
def keywords : List (String × TokenType) :=
  [("and", .AND), ("class", .CLASS), ("else", .ELSE), ("false", .FALSE),
   ("for", .FOR), ("fun", .FUN), ("if", .IF), ("nil", .NIL),
   ("or", .OR), ("print", .PRINT), ("return", .RETURN), ("super", .SUPER),
   ("this", .THIS), ("true", .TRUE), ("var", .VAR), ("while", .WHILE)]

/-- `keywords.contains(text) ? keywords[text] : IDENTIFIER` (Scanner.cpp line 174). -/
def keywordType (text : String) : TokenType :=
  (keywords.lookup text).getD .IDENTIFIER

/-- Scanner::isDigit. -/
def isDigit (c : Char) : Bool := '0' ≤ c ∧ c ≤ '9'

/-- Scanner::isAlpha. -/
def isAlpha (c : Char) : Bool :=
  ('a' ≤ c ∧ c ≤ 'z') ∨ ('A' ≤ c ∧ c ≤ 'Z') ∨ c = '_'

/-- Scanner::isAlphaNumeric. -/
def isAlphaNumeric (c : Char) : Bool := isAlpha c ∨ isDigit c

/-- The scan loop of Scanner::loxstring: advance (bumping `line` at newlines)
until the closing quote or end of input.  The loop consumes one character per
step, so `source.length + 1` fuel (what every caller passes) is exact. -/
def stringLoop : Nat → St → St
  | 0, s => s
  | n + 1, s =>
    if s.current < s.source.length ∧ s.source.getD s.current '\x00' ≠ '\x22' then
      stringLoop n { s with
        line := if s.source.getD s.current '\x00' = '\n' then s.line + 1 else s.line,
        current := s.current + 1 }
    else s

/-- Scanner::loxstring: scan a string literal; unterminated strings report
"Unterminated string." and emit no token; otherwise the literal is the text
between the quotes (`substr(start + 1, current - 1 - start - 1)`). -/
def loxstring (s : St) : St :=
  let s1 := stringLoop (s.source.length + 1) s
  if isAtEnd s1 then
    { s1 with errors := s1.errors ++ [(s1.line, "Unterminated string.")] }
  else
    let s2 := { s1 with current := s1.current + 1 }
    addTokenLit s2 .STRING
      (.lstr (String.mk ((s2.source.drop (s2.start + 1)).take (s2.current - 1 - s2.start - 1))))

/-- `while (isDigit(peek())) advance();` in Scanner::loxnumber. -/
def digitsLoop : Nat → St → St
  | 0, s => s
  | n + 1, s =>
    if s.current < s.source.length ∧ isDigit (s.source.getD s.current '\x00') then
      digitsLoop n { s with current := s.current + 1 }
    else s

/-- `while (isAlphaNumeric(peek())) advance();` in Scanner::identifier. -/
def identLoop : Nat → St → St
  | 0, s => s
  | n + 1, s =>
    if s.current < s.source.length ∧ isAlphaNumeric (s.source.getD s.current '\x00') then
      identLoop n { s with current := s.current + 1 }
    else s

/-- `while (peek() != newline && !isAtEnd()) advance();` for `//` comments. -/
def commentLoop : Nat → St → St
  | 0, s => s
  | n + 1, s =>
    if s.current < s.source.length ∧ s.source.getD s.current '\x00' ≠ '\n' then
      commentLoop n { s with current := s.current + 1 }
    else s

/-- Scanner::identifier: consume the alphanumeric tail, classify against the
keyword table, and add the token (with the default empty literal). -/
def identifier (s : St) : St :=
  let s1 := identLoop (s.source.length + 1) s
  let text := String.mk ((s1.source.drop s1.start).take (s1.current - s1.start))
  addToken s1 (keywordType text)

/-- Scanner::loxnumber: digits, optional `.` followed by digits.  The token is
added with `addToken(NUMBER, std::string(source.substr(start, current - start)))`:
the Literal variant is constructed from a std::string, which selects the
string_view alternative, so the stored literal is the TEXT of the number, not a
double. -/
def loxnumber (s : St) : St :=
  let s1 := digitsLoop (s.source.length + 1) s
  let s2 :=
    if peek s1 = '.' ∧ isDigit (peekNext s1) then
      digitsLoop (s1.source.length + 1) { s1 with current := s1.current + 1 }
    else s1
  addTokenLit s2 .NUMBER (.lstr (lexemeOf s2))

/-- Scanner::scanToken: dispatch on the next character (Scanner.cpp lines
229-352), including the special `case 'o'` that emits OR when the following
character is `r` and otherwise emits nothing at all. -/
def scanToken (s : St) : St :=
  let (c, s) := advance s
  match c with
  | '(' => addToken s .LEFT_PAREN
  | ')' => addToken s .RIGHT_PAREN
  | '\x7b' => addToken s .LEFT_BRACE
  | '\x7d' => addToken s .RIGHT_BRACE
  | ',' => addToken s .COMMA
  | '.' => addToken s .DOT
  | '-' => addToken s .MINUS
  | '+' => addToken s .PLUS
  | ';' => addToken s .SEMICOLON
  | '*' => addToken s .STAR
  | '!' =>
      let (m, s) := matchChar s '='
      addToken s (if m then .BANG_EQUAL else .BANG)
  | '=' =>
      let (m, s) := matchChar s '='
      addToken s (if m then .EQUAL_EQUAL else .EQUAL)
  | '<' =>
      let (m, s) := matchChar s '='
      addToken s (if m then .LESS_EQUAL else .LESS)
  | '>' =>
      let (m, s) := matchChar s '='
      addToken s (if m then .GREATER_EQUAL else .GREATER)
  | '/' =>
      let (m, s) := matchChar s '/'
      if m then commentLoop (s.source.length + 1) s else addToken s .SLASH
  | ' ' => s
  | '\r' => s
  | '\t' => s
  | '\n' => { s with line := s.line + 1 }
  | '\x22' => loxstring s
  | 'o' =>
      let (m, s) := matchChar s 'r'
      if m then addToken s .OR else s
  | c =>
      if isDigit c then loxnumber s
      else if isAlpha c then identifier s
      else { s with errors := s.errors ++ [(s.line, "Unexpected character.")] }

/-- The `while (!isAtEnd())` loop of Scanner::scanTokens, on fuel.  Each
iteration sets `start := current` and runs scanToken; since scanToken always
consumes at least one character, `source.length + 1` fuel is exact. -/
def scanLoop : Nat → St → St
  | 0, s => s
  | n + 1, s => if isAtEnd s then s else scanLoop n (scanToken { s with start := s.current })

/-- Scanner::scanTokens: scan the whole source and append the end-of-file token
(whose lexeme and literal are both empty strings).  Returns the token list and
the reported lexical errors. -/
def scanTokens (src : String) : List Token × List (Nat × String) :=
  let s := scanLoop (src.length + 1)
    { source := src.data, start := 0, current := 0, line := 1, tokens := [], errors := [] }
  (s.tokens ++ [⟨.LoxEOF, "", .lstr "", s.line⟩], s.errors)

end Scanner

/-- enum class UnaryOp (src/include/frontend/Ast.h). -/
inductive UnaryOp where
  | BANG | MINUS
  deriving DecidableEq, Repr

/-- enum class BinaryOp (Ast.h). -/
inductive BinaryOp where
  | PLUS | MINUS | SLASH | STAR
  | GREATER | GREATER_EQUAL | LESS | LESS_EQUAL
  | BANG_EQUAL | EQUAL_EQUAL
  deriving DecidableEq, Repr

/-- enum class LogicalOp (Ast.h). -/
inductive LogicalOp where
  | OR | AND
  deriving DecidableEq, Repr

/-- enum class LoxFunctionType (Ast.h). -/
inductive LoxFunctionType where
  | NONE | FUNCTION | INITIALIZER | METHOD
  deriving DecidableEq, Repr

/-- Expressions (the Expr variant of Ast.h).  Nodes deriving from Assignable
(variable, assignment, `this`, `super`) carry their mutable resolution slot
`distance` as an explicit field; the parser creates it as -1 and the resolver
rewrites it. -/
inductive Expr where
  | binary (left : Expr) (token : Token) (op : BinaryOp) (right : Expr)
  | call (callee : Expr) (keyword : Token) (args : List Expr)
  | getE (object : Expr) (name : Token)
  | setE (object : Expr) (name : Token) (value : Expr)
  | thisE (name : Token) (distance : Int)
  | superE (name : Token) (distance : Int) (method : Token)
  | grouping (e : Expr)
  | literal (value : Lit)
  | logical (left : Expr) (op : LogicalOp) (right : Expr)
  | unary (token : Token) (op : UnaryOp) (e : Expr)
  | varE (name : Token) (distance : Int)
  | assign (name : Token) (distance : Int) (value : Expr)
  deriving Repr

mutual

/-- Statements and function declarations (the Stmt variant of Ast.h).
A ClassStmt superclass is a VarExpr: its name token plus its resolution slot. -/
inductive Stmt where
  | expression (e : Expr)
  | funcS (f : FunctionStmt)
  | returnS (keyword : Token) (value : Option Expr)
  | ifS (cond : Expr) (thenBranch : Stmt) (elseBranch : Option Stmt)
  | printS (e : Expr)
  | varS (name : Token) (init : Expr)
  | blockS (stmts : List Stmt)
  | whileS (cond : Expr) (body : Stmt)
  | classS (name : Token) (superclass : Option (Token × Int)) (methods : List FunctionStmt)

/-- class FunctionStmt (Ast.h): name, kind, parameters, body. -/
inductive FunctionStmt where
  | mk (name : Token) (type : LoxFunctionType) (params : List Token) (body : List Stmt)

end

/-- Name of a FunctionStmt. -/
def FunctionStmt.name : FunctionStmt → Token
  | .mk n _ _ _ => n

/-- Kind of a FunctionStmt. -/
def FunctionStmt.type : FunctionStmt → LoxFunctionType
  | .mk _ t _ _ => t

/-- Parameters of a FunctionStmt. -/
def FunctionStmt.params : FunctionStmt → List Token
  | .mk _ _ p _ => p

/-- Body of a FunctionStmt. -/
def FunctionStmt.body : FunctionStmt → List Stmt
  | .mk _ _ _ b => b

/-- A Program is a list of statements (Ast.h). -/
abbrev Program := List Stmt

namespace Parser

/-- Parser state (src/include/frontend/Parser.h): the token vector and the
`current` index, plus the process-wide diagnostics of Error.h: the `hadError`
flag and the reported messages. -/
structure St where
  tokens : List Token
  current : Nat
  hadError : Bool
  errors : List String

/-- Fallback used where the C++ would index the token vector out of range
(cannot happen for scanner output, which always ends in LoxEOF). -/
def eofFallback : Token := ⟨.LoxEOF, "", .lstr "", 0⟩

/-- Result of a parsing function.  `thrown` models a C++ ParseError escaping:
`throw error(peek(), message)` reports the error and throws; Parser::Parse has
no handler for it, so such an exception leaves the parser entirely. -/
inductive PRes (α : Type) where
  | ok (a : α) (s : St)
  | thrown (s : St)
  | fuelEmpty (s : St)

/-- Parser::peek: `tokens[current]`. -/
def peek (s : St) : Token := s.tokens.getD s.current eofFallback

/-- Parser::previous: `tokens[current - 1]`. -/
def previous (s : St) : Token := s.tokens.getD (s.current - 1) eofFallback

/-- Parser::isAtEnd: the current token is LoxEOF. -/
def isAtEnd (s : St) : Bool := (peek s).type = .LoxEOF

/-- Parser::check. -/
def check (s : St) (type : TokenType) : Bool :=
  if isAtEnd s then false else (peek s).type = type

/-- Parser::advance: step forward unless at end; return the previous token. -/
def advanceP (s : St) : Token × St :=
  let s' := if isAtEnd s then s else { s with current := s.current + 1 }
  (previous s', s')

/-- Parser::match on a single token kind. -/
def matchT (s : St) (type : TokenType) : Bool × St :=
  if check s type then (true, (advanceP s).2) else (false, s)

/-- Parser::match on a list of kinds: advance past the first kind that checks. -/
def matchL (s : St) (types : List TokenType) : Bool × St :=
  match types with
  | [] => (false, s)
  | t :: rest => if check s t then (true, (advanceP s).2) else matchL s rest

/-- The error/report path of Error.h: record the message and set hadError. -/
def report (s : St) (msg : String) : St :=
  { s with hadError := true, errors := s.errors ++ [msg] }

/-- Parser::consume: advance past the expected kind, else report and throw. -/
def consume (s : St) (type : TokenType) (msg : String) : PRes Token :=
  if check s type then
    let (t, s') := advanceP s
    .ok t s'
  else .thrown (report s msg)

/-- `static_cast<BinaryOp>(operator.getType())`; other kinds cannot reach it. -/
def binOpOfType : TokenType → BinaryOp
  | .PLUS => .PLUS
  | .MINUS => .MINUS
  | .SLASH => .SLASH
  | .STAR => .STAR
  | .GREATER => .GREATER
  | .GREATER_EQUAL => .GREATER_EQUAL
  | .LESS => .LESS
  | .LESS_EQUAL => .LESS_EQUAL
  | .BANG_EQUAL => .BANG_EQUAL
  | _ => .EQUAL_EQUAL

/-- `static_cast<UnaryOp>(operator.getType())`; only BANG or MINUS reach it. -/
def unOpOfType : TokenType → UnaryOp
  | .MINUS => .MINUS
  | _ => .BANG

mutual

/-- Parser::expression: delegates to assignment (Parser.cpp line 125). -/
def expression : Nat → St → PRes Expr
  | 0, s => .fuelEmpty s
  | n + 1, s => assignment n s

/-- Parser::assignment.  On a bad target the C++ calls error (report only, no
throw) and then falls through to return the left-hand side unchanged. -/
def assignment : Nat → St → PRes Expr
  | 0, s => .fuelEmpty s
  | n + 1, s =>
    match orP n s with
    | .ok expr s1 =>
      let (m, s2) := matchT s1 .EQUAL
      if m then
        match assignment n s2 with
        | .ok value s3 =>
          match expr with
          | .varE name _ => .ok (.assign name (-1) value) s3
          | .getE obj name => .ok (.setE obj name value) s3
          | _ => .ok expr (report s3 "Invalid assignment target.")
        | r => r
      else .ok expr s2
    | r => r

/-- Parser::or_. -/
def orP : Nat → St → PRes Expr
  | 0, s => .fuelEmpty s
  | n + 1, s =>
    match andP n s with
    | .ok expr s1 => orRest n expr s1
    | r => r

/-- The `while (match(OR))` loop of Parser::or_. -/
def orRest : Nat → Expr → St → PRes Expr
  | 0, _, s => .fuelEmpty s
  | n + 1, expr, s =>
    let (m, s1) := matchT s .OR
    if m then
      match andP n s1 with
      | .ok right s2 => orRest n (.logical expr .OR right) s2
      | r => r
    else .ok expr s1

/-- Parser::and_. -/
def andP : Nat → St → PRes Expr
  | 0, s => .fuelEmpty s
  | n + 1, s =>
    match equality n s with
    | .ok expr s1 => andRest n expr s1
    | r => r

/-- The `while (match(AND))` loop of Parser::and_. -/
def andRest : Nat → Expr → St → PRes Expr
  | 0, _, s => .fuelEmpty s
  | n + 1, expr, s =>
    let (m, s1) := matchT s .AND
    if m then
      match equality n s1 with
      | .ok right s2 => andRest n (.logical expr .AND right) s2
      | r => r
    else .ok expr s1

/-- Parser::equality. -/
def equality : Nat → St → PRes Expr
  | 0, s => .fuelEmpty s
  | n + 1, s =>
    match comparison n s with
    | .ok expr s1 => equalityRest n expr s1
    | r => r

/-- The `while (match(BANG_EQUAL, EQUAL_EQUAL))` loop of Parser::equality. -/
def equalityRest : Nat → Expr → St → PRes Expr
  | 0, _, s => .fuelEmpty s
  | n + 1, expr, s =>
    let (m, s1) := matchL s [.BANG_EQUAL, .EQUAL_EQUAL]
    if m then
      let op := previous s1
      match comparison n s1 with
      | .ok right s2 => equalityRest n (.binary expr op (binOpOfType op.type) right) s2
      | r => r
    else .ok expr s1

/-- Parser::comparison. -/
def comparison : Nat → St → PRes Expr
  | 0, s => .fuelEmpty s
  | n + 1, s =>
    match term n s with
    | .ok expr s1 => comparisonRest n expr s1
    | r => r

/-- The comparison-operator loop of Parser::comparison. -/
def comparisonRest : Nat → Expr → St → PRes Expr
  | 0, _, s => .fuelEmpty s
  | n + 1, expr, s =>
    let (m, s1) := matchL s [.GREATER, .GREATER_EQUAL, .LESS, .LESS_EQUAL]
    if m then
      let op := previous s1
      match term n s1 with
      | .ok right s2 => comparisonRest n (.binary expr op (binOpOfType op.type) right) s2
      | r => r
    else .ok expr s1

/-- Parser::term. -/
def term : Nat → St → PRes Expr
  | 0, s => .fuelEmpty s
  | n + 1, s =>
    match factor n s with
    | .ok expr s1 => termRest n expr s1
    | r => r

/-- The `while (match(MINUS, PLUS))` loop of Parser::term. -/
def termRest : Nat → Expr → St → PRes Expr
  | 0, _, s => .fuelEmpty s
  | n + 1, expr, s =>
    let (m, s1) := matchL s [.MINUS, .PLUS]
    if m then
      let op := previous s1
      match factor n s1 with
      | .ok right s2 => termRest n (.binary expr op (binOpOfType op.type) right) s2
      | r => r
    else .ok expr s1

/-- Parser::factor. -/
def factor : Nat → St → PRes Expr
  | 0, s => .fuelEmpty s
  | n + 1, s =>
    match unaryP n s with
    | .ok expr s1 => factorRest n expr s1
    | r => r

/-- The `while (match(SLASH, STAR))` loop of Parser::factor. -/
def factorRest : Nat → Expr → St → PRes Expr
  | 0, _, s => .fuelEmpty s
  | n + 1, expr, s =>
    let (m, s1) := matchL s [.SLASH, .STAR]
    if m then
      let op := previous s1
      match unaryP n s1 with
      | .ok right s2 => factorRest n (.binary expr op (binOpOfType op.type) right) s2
      | r => r
    else .ok expr s1

/-- Parser::unary. -/
def unaryP : Nat → St → PRes Expr
  | 0, s => .fuelEmpty s
  | n + 1, s =>
    let (m, s1) := matchL s [.BANG, .MINUS]
    if m then
      let op := previous s1
      match unaryP n s1 with
      | .ok right s2 => .ok (.unary op (unOpOfType op.type) right) s2
      | r => r
    else callP n s1

/-- Parser::call. -/
def callP : Nat → St → PRes Expr
  | 0, s => .fuelEmpty s
  | n + 1, s =>
    match primary n s with
    | .ok expr s1 => callRest n expr s1
    | r => r

/-- The `while (true)` suffix loop of Parser::call: call parentheses and `.`
property accesses. -/
def callRest : Nat → Expr → St → PRes Expr
  | 0, _, s => .fuelEmpty s
  | n + 1, expr, s =>
    let (m, s1) := matchT s .LEFT_PAREN
    if m then
      match finishCall n expr s1 with
      | .ok e s2 => callRest n e s2
      | r => r
    else
      let (m2, s2) := matchT s1 .DOT
      if m2 then
        match consume s2 .IDENTIFIER "Expect property name after '.'." with
        | .ok name s3 => callRest n (.getE expr name) s3
        | .thrown s3 => .thrown s3
        | .fuelEmpty s3 => .fuelEmpty s3
      else .ok expr s2

/-- Parser::finishCall: parse the argument list and build the CallExpr, whose
keyword token is `previous()` after consuming the closing parenthesis, i.e. the
`)` token.  (The 255-argument warning only writes to stderr and is omitted.) -/
def finishCall : Nat → Expr → St → PRes Expr
  | 0, _, s => .fuelEmpty s
  | n + 1, callee, s =>
    let argsRes : PRes (List Expr) :=
      if ¬check s .RIGHT_PAREN then argsLoop n [] s else .ok [] s
    match argsRes with
    | .ok args s1 =>
      match consume s1 .RIGHT_PAREN "Expect ')' after arguments." with
      | .ok _ s2 => .ok (.call callee (previous s2) args) s2
      | .thrown s2 => .thrown s2
      | .fuelEmpty s2 => .fuelEmpty s2
    | .thrown s1 => .thrown s1
    | .fuelEmpty s1 => .fuelEmpty s1

/-- The `do { ... } while (match(COMMA))` argument loop of Parser::finishCall. -/
def argsLoop : Nat → List Expr → St → PRes (List Expr)
  | 0, _, s => .fuelEmpty s
  | n + 1, acc, s =>
    match expression n s with
    | .ok e s1 =>
      let (m, s2) := matchT s1 .COMMA
      if m then argsLoop n (acc ++ [e]) s2 else .ok (acc ++ [e]) s2
    | .thrown s1 => .thrown s1
    | .fuelEmpty s1 => .fuelEmpty s1

/-- Parser::primary (Parser.cpp lines 167-208).  Note that the C++ has no
IDENTIFIER case: a bare identifier is a syntax error here. -/
def primary : Nat → St → PRes Expr
  | 0, s => .fuelEmpty s
  | n + 1, s =>
    let (mf, s) := matchT s .FALSE
    if mf then .ok (.literal (.lbool false)) s else
    let (mt, s) := matchT s .TRUE
    if mt then .ok (.literal (.lbool true)) s else
    let (mn, s) := matchT s .NIL
    if mn then .ok (.literal .lnil) s else
    let (ml, s) := matchL s [.NUMBER, .STRING]
    if ml then .ok (.literal (previous s).literal) s else
    let (mp, s) := matchT s .LEFT_PAREN
    if mp then
      match expression n s with
      | .ok e s1 =>
        match consume s1 .RIGHT_PAREN "Expect ')' after expression." with
        | .ok _ s2 => .ok (.grouping e) s2
        | .thrown s2 => .thrown s2
        | .fuelEmpty s2 => .fuelEmpty s2
      | r => r
    else
    let (mth, s) := matchT s .THIS
    if mth then .ok (.thisE (previous s) (-1)) s else
    let (ms, s) := matchT s .SUPER
    if ms then
      let keyword := previous s
      match consume s .DOT "Expect '.' after 'super'." with
      | .ok _ s1 =>
        match consume s1 .IDENTIFIER "Expect superclass method name." with
        | .ok method s2 => .ok (.superE keyword (-1) method) s2
        | .thrown s2 => .thrown s2
        | .fuelEmpty s2 => .fuelEmpty s2
      | .thrown s1 => .thrown s1
      | .fuelEmpty s1 => .fuelEmpty s1
    else .thrown (report s "Expect expression.in prarser cpp 208 line")

end

/-- Parser::synchronize: skip tokens until after a `;` or before a
statement-starting keyword. -/
def synchronize : Nat → St → St
  | 0, s => s
  | n + 1, s =>
    let (_, s) := advanceP s
    syncLoop n s
where
  /-- The `while (!isAtEnd())` body of Parser::synchronize. -/
  syncLoop : Nat → St → St
    | 0, s => s
    | n + 1, s =>
      if isAtEnd s then s
      else if (previous s).type = .SEMICOLON then s
      else
        match (peek s).type with
        | .CLASS | .FUN | .VAR | .FOR | .IF | .WHILE | .PRINT | .RETURN => s
        | _ => syncLoop n (advanceP s).2

mutual

/-- Parser::declaration.  When `hadError` is already set the C++ synchronizes
and returns `std::make_optional<Stmt>()`, an engaged optional holding a
default-constructed (null) statement; any later use of that null statement
dereferences a null pointer, so the model returns `none` for it (no settled
claim reaches this branch). -/
def declaration : Nat → St → PRes (Option Stmt)
  | 0, s => .fuelEmpty s
  | n + 1, s =>
    let (mc, s) := matchT s .CLASS
    if mc then
      match classDeclaration n s with
      | .ok c s1 => .ok (some (.classS c.1 c.2.1 c.2.2)) s1
      | .thrown s1 => .thrown s1
      | .fuelEmpty s1 => .fuelEmpty s1
    else
    let (mv, s) := matchT s .VAR
    if mv then
      match varDeclaration n s with
      | .ok v s1 => .ok (some v) s1
      | .thrown s1 => .thrown s1
      | .fuelEmpty s1 => .fuelEmpty s1
    else
    let (mfn, s) := matchT s .FUN
    if mfn then
      match functionDecl n .FUNCTION s with
      | .ok f s1 => .ok (some (.funcS f)) s1
      | .thrown s1 => .thrown s1
      | .fuelEmpty s1 => .fuelEmpty s1
    else
    if s.hadError then .ok none (synchronize n s)
    else
      match statement n s with
      | .ok st s1 => .ok (some st) s1
      | .thrown s1 => .thrown s1
      | .fuelEmpty s1 => .fuelEmpty s1

/-- Parser::classDeclaration: name, optional `< superclass`, brace-enclosed
method list.  Returns (name, superclass VarExpr data, methods). -/
def classDeclaration : Nat → St →
    PRes (Token × Option (Token × Int) × List FunctionStmt)
  | 0, s => .fuelEmpty s
  | n + 1, s =>
    match consume s .IDENTIFIER "expetc class name." with
    | .ok name s1 =>
      let (ml, s2) := matchT s1 .LESS
      let superRes : PRes (Option (Token × Int)) :=
        if ml then
          match consume s2 .IDENTIFIER "expect superclass name." with
          | .ok _ s3 => .ok (some (previous s3, -1)) s3
          | .thrown s3 => .thrown s3
          | .fuelEmpty s3 => .fuelEmpty s3
        else .ok none s2
      match superRes with
      | .ok sup s4 =>
        match consume s4 .LEFT_BRACE "Expect '\x7b' before class body." with
        | .ok _ s5 =>
          match methodsLoop n [] s5 with
          | .ok methods s6 =>
            match consume s6 .RIGHT_BRACE "Expect '\x7d' after class body." with
            | .ok _ s7 => .ok (name, sup, methods) s7
            | .thrown s7 => .thrown s7
            | .fuelEmpty s7 => .fuelEmpty s7
          | .thrown s6 => .thrown s6
          | .fuelEmpty s6 => .fuelEmpty s6
        | .thrown s5 => .thrown s5
        | .fuelEmpty s5 => .fuelEmpty s5
      | .thrown s4 => .thrown s4
      | .fuelEmpty s4 => .fuelEmpty s4
    | .thrown s1 => .thrown s1
    | .fuelEmpty s1 => .fuelEmpty s1

/-- The `while (!check(RIGHT_BRACE) && !isAtEnd())` method loop of
Parser::classDeclaration; every member is parsed with kind METHOD. -/
def methodsLoop : Nat → List FunctionStmt → St → PRes (List FunctionStmt)
  | 0, _, s => .fuelEmpty s
  | n + 1, acc, s =>
    if ¬check s .RIGHT_BRACE ∧ ¬isAtEnd s then
      match functionDecl n .METHOD s with
      | .ok f s1 => methodsLoop n (acc ++ [f]) s1
      | .thrown s1 => .thrown s1
      | .fuelEmpty s1 => .fuelEmpty s1
    else .ok acc s

/-- Parser::varDeclaration: an absent initializer becomes a nil literal. -/
def varDeclaration : Nat → St → PRes Stmt
  | 0, s => .fuelEmpty s
  | n + 1, s =>
    match consume s .IDENTIFIER "expect variable name." with
    | .ok name s1 =>
      let (me, s2) := matchT s1 .EQUAL
      let initRes : PRes Expr :=
        if me then expression n s2 else .ok (.literal .lnil) s2
      match initRes with
      | .ok init s3 =>
        match consume s3 .SEMICOLON "expect ';' after variable declaration." with
        | .ok _ s4 => .ok (.varS name init) s4
        | .thrown s4 => .thrown s4
        | .fuelEmpty s4 => .fuelEmpty s4
      | .thrown s3 => .thrown s3
      | .fuelEmpty s3 => .fuelEmpty s3
    | .thrown s1 => .thrown s1
    | .fuelEmpty s1 => .fuelEmpty s1

/-- Parser::function: name, parameter list, body; a METHOD named `init` is
reclassified as INITIALIZER.  (The 255-parameter report is a non-fatal error;
it is recorded but parsing continues, as in the C++.) -/
def functionDecl : Nat → LoxFunctionType → St → PRes FunctionStmt
  | 0, _, s => .fuelEmpty s
  | n + 1, type, s =>
    let kind := if type = .FUNCTION then "function" else "method"
    match consume s .IDENTIFIER ("Expect " ++ kind ++ " name.") with
    | .ok name s1 =>
      match consume s1 .LEFT_PAREN ("expect '(' after" ++ kind ++ "name") with
      | .ok _ s2 =>
        let paramsRes : PRes (List Token) :=
          if ¬check s2 .RIGHT_PAREN then paramsLoop n [] s2 else .ok [] s2
        match paramsRes with
        | .ok params s3 =>
          match consume s3 .RIGHT_PAREN "Expect ')' after parameters." with
          | .ok _ s4 =>
            match consume s4 .LEFT_BRACE ("Expect '\x7b' before " ++ kind ++ " body.") with
            | .ok _ s5 =>
              match blockLoop n [] s5 with
              | .ok body s6 =>
                .ok (.mk name
                  (if type = .METHOD ∧ name.lexeme = "init" then .INITIALIZER else type)
                  params body) s6
              | .thrown s6 => .thrown s6
              | .fuelEmpty s6 => .fuelEmpty s6
            | .thrown s5 => .thrown s5
            | .fuelEmpty s5 => .fuelEmpty s5
          | .thrown s4 => .thrown s4
          | .fuelEmpty s4 => .fuelEmpty s4
        | .thrown s3 => .thrown s3
        | .fuelEmpty s3 => .fuelEmpty s3
      | .thrown s2 => .thrown s2
      | .fuelEmpty s2 => .fuelEmpty s2
    | .thrown s1 => .thrown s1
    | .fuelEmpty s1 => .fuelEmpty s1

/-- The `do { ... } while (match(COMMA))` parameter loop of Parser::function,
including the non-fatal over-255 report. -/
def paramsLoop : Nat → List Token → St → PRes (List Token)
  | 0, _, s => .fuelEmpty s
  | n + 1, acc, s =>
    let s := if 255 ≤ acc.length
      then report s "Can't have more than 255 parameters." else s
    match consume s .IDENTIFIER "Expect parameter name." with
    | .ok p s1 =>
      let (m, s2) := matchT s1 .COMMA
      if m then paramsLoop n (acc ++ [p]) s2 else .ok (acc ++ [p]) s2
    | .thrown s1 => .thrown s1
    | .fuelEmpty s1 => .fuelEmpty s1

/-- Parser::block: the declaration loop up to the closing brace. -/
def blockLoop : Nat → List Stmt → St → PRes (List Stmt)
  | 0, _, s => .fuelEmpty s
  | n + 1, acc, s =>
    if ¬check s .RIGHT_BRACE ∧ ¬isAtEnd s then
      match declaration n s with
      | .ok (some st) s1 => blockLoop n (acc ++ [st]) s1
      | .ok none s1 => blockLoop n acc s1
      | .thrown s1 => .thrown s1
      | .fuelEmpty s1 => .fuelEmpty s1
    else
      match consume s .RIGHT_BRACE "Expect '\x7d' after block." with
      | .ok _ s1 => .ok acc s1
      | .thrown s1 => .thrown s1
      | .fuelEmpty s1 => .fuelEmpty s1

/-- Parser::statement (Parser.cpp lines 826-845), with its dispatch order
(return, for, print, return, while, for, if, block) kept as written; the
duplicated checks can never fire. -/
def statement : Nat → St → PRes Stmt
  | 0, s => .fuelEmpty s
  | n + 1, s =>
    let (m1, s) := matchT s .RETURN
    if m1 then returnStatement n s else
    let (m2, s) := matchT s .FOR
    if m2 then forStatement n s else
    let (m3, s) := matchT s .PRINT
    if m3 then printStatement n s else
    let (m4, s) := matchT s .RETURN
    if m4 then returnStatement n s else
    let (m5, s) := matchT s .WHILE
    if m5 then whileStatement n s else
    let (m6, s) := matchT s .FOR
    if m6 then forStatement n s else
    let (m7, s) := matchT s .IF
    if m7 then ifStatement n s else
    let (m8, s) := matchT s .LEFT_BRACE
    if m8 then
      match blockLoop n [] s with
      | .ok stmts s1 => .ok (.blockS stmts) s1
      | .thrown s1 => .thrown s1
      | .fuelEmpty s1 => .fuelEmpty s1
    else expressionStatement n s

/-- Parser::expressionStatement. -/
def expressionStatement : Nat → St → PRes Stmt
  | 0, s => .fuelEmpty s
  | n + 1, s =>
    match expression n s with
    | .ok e s1 =>
      match consume s1 .SEMICOLON "Expect ';' after expression." with
      | .ok _ s2 => .ok (.expression e) s2
      | .thrown s2 => .thrown s2
      | .fuelEmpty s2 => .fuelEmpty s2
    | .thrown s1 => .thrown s1
    | .fuelEmpty s1 => .fuelEmpty s1

/-- Parser::printStatement. -/
def printStatement : Nat → St → PRes Stmt
  | 0, s => .fuelEmpty s
  | n + 1, s =>
    match expression n s with
    | .ok e s1 =>
      match consume s1 .SEMICOLON "Expect ';' after value." with
      | .ok _ s2 => .ok (.printS e) s2
      | .thrown s2 => .thrown s2
      | .fuelEmpty s2 => .fuelEmpty s2
    | .thrown s1 => .thrown s1
    | .fuelEmpty s1 => .fuelEmpty s1

/-- Parser::returnStatement: keyword is `previous()`, value optional. -/
def returnStatement : Nat → St → PRes Stmt
  | 0, s => .fuelEmpty s
  | n + 1, s =>
    let keyword := previous s
    let valueRes : PRes (Option Expr) :=
      if ¬check s .SEMICOLON then
        match expression n s with
        | .ok e s1 => .ok (some e) s1
        | .thrown s1 => .thrown s1
        | .fuelEmpty s1 => .fuelEmpty s1
      else .ok none s
    match valueRes with
    | .ok value s1 =>
      match consume s1 .SEMICOLON "Expect ';' after return value." with
      | .ok _ s2 => .ok (.returnS keyword value) s2
      | .thrown s2 => .thrown s2
      | .fuelEmpty s2 => .fuelEmpty s2
    | .thrown s1 => .thrown s1
    | .fuelEmpty s1 => .fuelEmpty s1

/-- Parser::whileStatement. -/
def whileStatement : Nat → St → PRes Stmt
  | 0, s => .fuelEmpty s
  | n + 1, s =>
    match consume s .LEFT_PAREN "Expect '(' after 'while'." with
    | .ok _ s1 =>
      match expression n s1 with
      | .ok cond s2 =>
        match consume s2 .RIGHT_PAREN "Expect ')' after while condition." with
        | .ok _ s3 =>
          match statement n s3 with
          | .ok body s4 => .ok (.whileS cond body) s4
          | .thrown s4 => .thrown s4
          | .fuelEmpty s4 => .fuelEmpty s4
        | .thrown s3 => .thrown s3
        | .fuelEmpty s3 => .fuelEmpty s3
      | .thrown s2 => .thrown s2
      | .fuelEmpty s2 => .fuelEmpty s2
    | .thrown s1 => .thrown s1
    | .fuelEmpty s1 => .fuelEmpty s1

/-- Parser::ifStatement. -/
def ifStatement : Nat → St → PRes Stmt
  | 0, s => .fuelEmpty s
  | n + 1, s =>
    match consume s .LEFT_PAREN "Expect '(' after 'if'." with
    | .ok _ s1 =>
      match expression n s1 with
      | .ok cond s2 =>
        match consume s2 .RIGHT_PAREN "Expect ')' after if condition." with
        | .ok _ s3 =>
          match statement n s3 with
          | .ok thenB s4 =>
            let (me, s5) := matchT s4 .ELSE
            if me then
              match statement n s5 with
              | .ok elseB s6 => .ok (.ifS cond thenB (some elseB)) s6
              | .thrown s6 => .thrown s6
              | .fuelEmpty s6 => .fuelEmpty s6
            else .ok (.ifS cond thenB none) s5
          | .thrown s4 => .thrown s4
          | .fuelEmpty s4 => .fuelEmpty s4
        | .thrown s3 => .thrown s3
        | .fuelEmpty s3 => .fuelEmpty s3
      | .thrown s2 => .thrown s2
      | .fuelEmpty s2 => .fuelEmpty s2
    | .thrown s1 => .thrown s1
    | .fuelEmpty s1 => .fuelEmpty s1

/-- Parser::forStatement, desugaring into while/blocks exactly as the C++:
optional initializer, condition defaulting to `true`, optional increment. -/
def forStatement : Nat → St → PRes Stmt
  | 0, s => .fuelEmpty s
  | n + 1, s =>
    match consume s .LEFT_PAREN "Expect '(' after 'for'." with
    | .ok _ s1 =>
      let initRes : PRes (Option Stmt) :=
        let (msemi, s2) := matchT s1 .SEMICOLON
        if msemi then .ok none s2
        else
          let (mvar, s3) := matchT s2 .VAR
          if mvar then
            match varDeclaration n s3 with
            | .ok v s4 => .ok (some v) s4
            | .thrown s4 => .thrown s4
            | .fuelEmpty s4 => .fuelEmpty s4
          else
            match expressionStatement n s3 with
            | .ok e s4 => .ok (some e) s4
            | .thrown s4 => .thrown s4
            | .fuelEmpty s4 => .fuelEmpty s4
      match initRes with
      | .ok init s5 =>
        let condRes : PRes (Option Expr) :=
          if ¬check s5 .SEMICOLON then
            match expression n s5 with
            | .ok e s6 => .ok (some e) s6
            | .thrown s6 => .thrown s6
            | .fuelEmpty s6 => .fuelEmpty s6
          else .ok none s5
        match condRes with
        | .ok cond s7 =>
          match consume s7 .SEMICOLON "Expect ';' after loop condition." with
          | .ok _ s8 =>
            let incrRes : PRes (Option Expr) :=
              if ¬check s8 .RIGHT_PAREN then
                match expression n s8 with
                | .ok e s9 => .ok (some e) s9
                | .thrown s9 => .thrown s9
                | .fuelEmpty s9 => .fuelEmpty s9
              else .ok none s8
            match incrRes with
            | .ok incr s10 =>
              match consume s10 .RIGHT_PAREN "Expect ')' after for clauses." with
              | .ok _ s11 =>
                match statement n s11 with
                | .ok body s12 =>
                  let body1 := match incr with
                    | some e => Stmt.blockS [body, .expression e]
                    | none => body
                  let cond1 := cond.getD (.literal (.lbool true))
                  let body2 := Stmt.whileS cond1 body1
                  let body3 := match init with
                    | some i => Stmt.blockS [i, body2]
                    | none => body2
                  .ok body3 s12
                | .thrown s12 => .thrown s12
                | .fuelEmpty s12 => .fuelEmpty s12
              | .thrown s11 => .thrown s11
              | .fuelEmpty s11 => .fuelEmpty s11
            | .thrown s10 => .thrown s10
            | .fuelEmpty s10 => .fuelEmpty s10
          | .thrown s8 => .thrown s8
          | .fuelEmpty s8 => .fuelEmpty s8
        | .thrown s7 => .thrown s7
        | .fuelEmpty s7 => .fuelEmpty s7
      | .thrown s5 => .thrown s5
      | .fuelEmpty s5 => .fuelEmpty s5
    | .thrown s1 => .thrown s1
    | .fuelEmpty s1 => .fuelEmpty s1

end

/-- The `while (!isAtEnd())` loop of Parser::Parse. -/
def parseLoop : Nat → List Stmt → St → PRes (List Stmt)
  | 0, _, s => .fuelEmpty s
  | n + 1, acc, s =>
    if isAtEnd s then .ok acc s
    else
      match declaration n s with
      | .ok (some st) s1 => parseLoop n (acc ++ [st]) s1
      | .ok none s1 => parseLoop n acc s1
      | .thrown s1 => .thrown s1
      | .fuelEmpty s1 => .fuelEmpty s1

/-- Parser::Parse: run the declaration loop over the token stream.
`hadError0` is the diagnostics flag carried over from scanning. -/
def parseProgram (fuel : Nat) (tokens : List Token) (hadError0 : Bool) :
    PRes (List Stmt) :=
  parseLoop fuel [] { tokens := tokens, current := 0, hadError := hadError0, errors := [] }

end Parser

namespace Resolver

/-- enum class ClassType (src/include/frontend/Resolver.h). -/
inductive ClassType where
  | NONE | CLASS | SUBCLASS
  deriving DecidableEq, Repr

/-- Resolver state: the scope stack (head = innermost scope, each scope a map
name to defined?), the two context machines, and the diagnostics. -/
structure St where
  scopes : List (List (String × Bool))
  currentFunction : LoxFunctionType
  currentClass : ClassType
  hadError : Bool
  errors : List String

/-- The error reporting path (Error.h): record the message, set hadError. -/
def reportR (s : St) (msg : String) : St :=
  { s with hadError := true, errors := s.errors ++ [msg] }

/-- Insert-or-replace into a scope map (std::unordered_map operator[]). -/
def scopeSet (scope : List (String × Bool)) (name : String) (v : Bool) :
    List (String × Bool) :=
  match scope with
  | [] => [(name, v)]
  | (k, w) :: rest => if k = name then (k, v) :: rest else (k, w) :: scopeSet rest name v

/-- Resolver::beginScope. -/
def beginScope (s : St) : St := { s with scopes := [] :: s.scopes }

/-- Resolver::endScope. -/
def endScope (s : St) : St := { s with scopes := s.scopes.tail }

/-- Resolver::declare: in the innermost scope, report a duplicate and mark the
name as declared-but-undefined; no-op with no open scope. -/
def declare (s : St) (name : Token) : St :=
  match s.scopes with
  | [] => s
  | scope :: rest =>
    let s1 := if (scope.lookup name.lexeme).isSome
      then reportR s "Already a variable with this name in this scope." else s
    { s1 with scopes := scopeSet scope name.lexeme false :: rest }

/-- Resolver::define: mark the name as defined in the innermost scope. -/
def define (s : St) (name : Token) : St :=
  match s.scopes with
  | [] => s
  | scope :: rest => { s with scopes := scopeSet scope name.lexeme true :: rest }

/-- Resolver::resolveLocal: distance to the innermost scope containing the
name, or none (leaving the slot at its parser value) when no scope has it. -/
def resolveLocal (s : St) (name : Token) : Option Int :=
  match s.scopes.findIdx? (fun scope => (scope.lookup name.lexeme).isSome) with
  | some i => some (Int.ofNat i)
  | none => none

mutual

/-- Resolver expression dispatch (the operator() overloads of Resolver.cpp),
returning the node with its resolution slots rewritten. -/
def resolveExpr : Nat → Expr → St → Expr × St
  | 0, e, s => (e, s)
  | n + 1, e, s =>
    match e with
    | .binary l tok op r =>
      let (l', s1) := resolveExpr n l s
      let (r', s2) := resolveExpr n r s1
      (.binary l' tok op r', s2)
    | .call callee kw args =>
      let (callee', s1) := resolveExpr n callee s
      let (args', s2) := resolveExprList n args s1
      (.call callee' kw args', s2)
    | .getE obj name =>
      let (obj', s1) := resolveExpr n obj s
      (.getE obj' name, s1)
    | .setE obj name value =>
      let (obj', s1) := resolveExpr n obj s
      let (value', s2) := resolveExpr n value s1
      (.setE obj' name value', s2)
    | .thisE name d =>
      if s.currentClass = .NONE then
        (.thisE name d, reportR s "Can't use 'this' outside of a class.")
      else (.thisE name ((resolveLocal s name).getD d), s)
    | .superE name d method =>
      let s1 :=
        if s.currentClass = .NONE then
          reportR s "Can't use 'super' outside of a class."
        else if s.currentClass ≠ .SUBCLASS then
          reportR s "Can't use 'super' in a class with no superclass."
        else s
      (.superE name ((resolveLocal s1 name).getD d) method, s1)
    | .grouping g =>
      let (g', s1) := resolveExpr n g s
      (.grouping g', s1)
    | .literal v => (.literal v, s)
    | .logical l op r =>
      let (l', s1) := resolveExpr n l s
      let (r', s2) := resolveExpr n r s1
      (.logical l' op r', s2)
    | .unary tok op g =>
      let (g', s1) := resolveExpr n g s
      (.unary tok op g', s1)
    | .varE name d =>
      match s.scopes with
      | scope :: _ =>
        if (scope.lookup name.lexeme) = some false then
          (.varE name d, reportR s "Can't read local variable in its own initializer.")
        else (.varE name ((resolveLocal s name).getD d), s)
      | [] => (.varE name ((resolveLocal s name).getD d), s)
    | .assign name d value =>
      let (value', s1) := resolveExpr n value s
      (.assign name ((resolveLocal s1 name).getD d) value', s1)

/-- Resolve a list of expressions in order (call arguments). -/
def resolveExprList : Nat → List Expr → St → List Expr × St
  | 0, es, s => (es, s)
  | _, [], s => ([], s)
  | n + 1, e :: rest, s =>
    let (e', s1) := resolveExpr n e s
    let (rest', s2) := resolveExprList n rest s1
    (e' :: rest', s2)

/-- Resolver statement dispatch. -/
def resolveStmt : Nat → Stmt → St → Stmt × St
  | 0, st, s => (st, s)
  | n + 1, st, s =>
    match st with
    | .expression e =>
      let (e', s1) := resolveExpr n e s
      (.expression e', s1)
    | .funcS f =>
      let s1 := define (declare s f.name) f.name
      let (f', s2) := resolveFunction n f .FUNCTION s1
      (.funcS f', s2)
    | .returnS kw value =>
      let s1 :=
        if s.currentFunction = .NONE then
          reportR s "Can't return from top-level code."
        else if value.isSome ∧ s.currentFunction = .INITIALIZER then
          reportR s "Can't return a value from an initializer."
        else s
      match value with
      | some e =>
        let (e', s2) := resolveExpr n e s1
        (.returnS kw (some e'), s2)
      | none => (.returnS kw none, s1)
    | .ifS cond thenB elseB =>
      let (cond', s1) := resolveExpr n cond s
      let (then', s2) := resolveStmt n thenB s1
      match elseB with
      | some e =>
        let (else', s3) := resolveStmt n e s2
        (.ifS cond' then' (some else'), s3)
      | none => (.ifS cond' then' none, s2)
    | .printS e =>
      let (e', s1) := resolveExpr n e s
      (.printS e', s1)
    | .varS name init =>
      let s1 := declare s name
      let (init', s2) := resolveExpr n init s1
      (.varS name init', define s2 name)
    | .blockS stmts =>
      let (stmts', s1) := resolveStmtList n stmts (beginScope s)
      (.blockS stmts', endScope s1)
    | .whileS cond body =>
      let (cond', s1) := resolveExpr n cond s
      let (body', s2) := resolveStmt n body s1
      (.whileS cond' body', s2)
    | .classS name sup methods =>
      let enclosingClass := s.currentClass
      let s1 := { s with currentClass := .CLASS }
      let s2 := define (declare s1 name) name
      let s3 := match sup with
        | some (supName, _) =>
          if name.lexeme = supName.lexeme then
            reportR s2 "A class can't inherit from itself."
          else s2
        | none => s2
      let (sup', s4) := match sup with
        | some (supName, d) =>
          let s4a := { s3 with currentClass := .SUBCLASS }
          match resolveExpr n (.varE supName d) s4a with
          | (.varE supName' d', s4b) => (some (supName', d'), s4b)
          | (_, s4b) => (some (supName, d), s4b)
        | none => (none, s3)
      let s5 := match sup with
        | some _ =>
          let s5a := beginScope s4
          { s5a with scopes :=
              match s5a.scopes with
              | scope :: rest => scopeSet scope "super" true :: rest
              | [] => [] }
        | none => s4
      let s6 :=
        let s6a := beginScope s5
        { s6a with scopes :=
            match s6a.scopes with
            | scope :: rest => scopeSet scope "this" true :: rest
            | [] => [] }
      let (methods', s7) := resolveMethods n methods s6
      let s8 := endScope s7
      let s9 := match sup with
        | some _ => endScope s8
        | none => s8
      (.classS name sup' methods', { s9 with currentClass := enclosingClass })

/-- The method loop of the class visitor: kind INITIALIZER for methods named
`init`, METHOD otherwise. -/
def resolveMethods : Nat → List FunctionStmt → St → List FunctionStmt × St
  | 0, ms, s => (ms, s)
  | _, [], s => ([], s)
  | n + 1, m :: rest, s =>
    let methodType : LoxFunctionType :=
      if m.name.lexeme = "init" then .INITIALIZER else .METHOD
    let (m', s1) := resolveFunction n m methodType s
    let (rest', s2) := resolveMethods n rest s1
    (m' :: rest', s2)

/-- Resolver::resolveFunction: swap the function context, open a scope with
the parameters declared and defined, resolve the body, close and restore. -/
def resolveFunction : Nat → FunctionStmt → LoxFunctionType → St → FunctionStmt × St
  | 0, f, _, s => (f, s)
  | n + 1, f, functionType, s =>
    let enclosingFunction := s.currentFunction
    let s1 := { s with currentFunction := functionType }
    let s2 := beginScope s1
    let s3 := f.params.foldl (fun acc p => define (declare acc p) p) s2
    let (body', s4) := resolveStmtList n f.body s3
    let s5 := endScope s4
    (.mk f.name f.type f.params body',
      { s5 with currentFunction := enclosingFunction })

/-- Resolve a statement list in order. -/
def resolveStmtList : Nat → List Stmt → St → List Stmt × St
  | 0, sts, s => (sts, s)
  | _, [], s => ([], s)
  | n + 1, st :: rest, s =>
    let (st', s1) := resolveStmt n st s
    let (rest', s2) := resolveStmtList n rest s1
    (st' :: rest', s2)

end

/-- Resolver::resolve(Program): resolve every top-level statement in order,
starting from empty scopes and NONE contexts.  `hadError0` carries the
diagnostics flag over from parsing. -/
def resolveProgram (fuel : Nat) (prog : Program) (hadError0 : Bool) :
    Program × St :=
  resolveStmtList fuel prog
    { scopes := [], currentFunction := .NONE, currentClass := .NONE,
      hadError := hadError0, errors := [] }

end Resolver

namespace Interp

/-- MAX_CALL_DEPTH (src/include/Lox/Interpreter.h line 8): `static int
MAX_CALL_DEPTH = 100;`. -/
def MAX_CALL_DEPTH : Nat := 100

/-- The one native function installed by the Interpreter constructor. -/
inductive NativeFn where
  | clock
  deriving DecidableEq, Repr

/-- A user function value (class LoxFunction): the declaration, the closure
environment (a heap id), and the is-initializer flag. -/
structure FunDef where
  decl : FunctionStmt
  closure : Nat
  isInitializer : Bool

/-- A class value (class LoxClass): name, optional superclass, method table.
The C++ also caches `initializer = findMethod("init")` at construction; the
model recomputes it through findMethod, which yields the same function. -/
inductive LoxClassV where
  | mk (name : String) (superclass : Option LoxClassV)
       (methods : List (String × FunDef))

/-- Class name accessor. -/
def LoxClassV.name : LoxClassV → String
  | .mk n _ _ => n

/-- Superclass accessor. -/
def LoxClassV.superclass : LoxClassV → Option LoxClassV
  | .mk _ sc _ => sc

/-- Method-table accessor. -/
def LoxClassV.methods : LoxClassV → List (String × FunDef)
  | .mk _ _ ms => ms

/-- LoxClass::findMethod: the own table first, then the superclass chain (the
two cases of the C++ `if (superclass)` are split at the pattern level; with no
superclass the own-table result is final). -/
def findMethod : LoxClassV → String → Option FunDef
  | .mk _ none methods, n => methods.lookup n
  | .mk _ (some sc) methods, n =>
    match methods.lookup n with
    | some m => some m
    | none => findMethod sc n

/-- A callable runtime value (class LoxCallable and its three subclasses). -/
inductive Callable where
  | native (arity : Nat) (fn : NativeFn)
  | fn (f : FunDef)
  | cls (c : LoxClassV)

/-- A runtime value: C++ `LoxObject = std::variant<LoxNil, LoxString, LoxNumber,
LoxBoolean, LoxCallablePtr, LoxInstancePtr>` (src/include/Lox/LoxObject.h).
Instances are mutable and aliased, so they live in a heap and the value holds
the heap index. -/
inductive LoxValue where
  | nil
  | str (s : String)
  | num (n : Rat)
  | bool (b : Bool)
  | callable (c : Callable)
  | inst (ref : Nat)

/-- One environment (class Environment): the name-value map and the id of the
enclosing environment.  Environments are shared and mutable, hence the heap. -/
structure EnvData where
  values : List (String × LoxValue)
  enclosing : Option Nat

/-- One instance (class LoxInstance): its class and its fields map. -/
structure InstData where
  klass : LoxClassV
  fields : List (String × LoxValue)

/-- The interpreter's mutable state: the environment heap (`globals` is id 0,
`envId` is the `environment` field), the call-depth counter, the instance
heap, and everything written to stdout. -/
structure State where
  envs : List EnvData
  envId : Nat
  functionDepth : Nat
  insts : List InstData
  output : String

/-- struct runtime_error (src/include/Error/Error.h): implicated token and
message. -/
structure RtError where
  token : Token
  msg : String
  deriving DecidableEq, Repr

/-- StmtResult = std::variant<LoxObject, Return, Nothing> (Interpreter.h).
No statement visitor ever constructs the bare LoxObject alternative. -/
inductive StmtRes where
  | objR (v : LoxValue)
  | retR (v : LoxValue)
  | nothingR

/-- Result of an evaluation step: a value with the state after it, a thrown
runtime_error with the state at the throw (C++ exceptions do not roll back
side effects), or fuel exhaustion (a model artifact never reached by the
settled claims at their stated fuel). -/
inductive ERes (α : Type) where
  | ok (a : α) (s : State)
  | err (e : RtError) (s : State)
  | fuelEmpty (s : State)

/-- Insert-or-replace in a name-value map (std::unordered_map operator[]). -/
def mapSet (l : List (String × LoxValue)) (k : String) (v : LoxValue) :
    List (String × LoxValue) :=
  match l with
  | [] => [(k, v)]
  | (k', w) :: rest => if k' = k then (k', v) :: rest else (k', w) :: mapSet rest k v

/-- Insert-or-replace in a method table (`methods[name] = fn` in the ClassStmt
visitor). -/
def methodSet (l : List (String × FunDef)) (k : String) (v : FunDef) :
    List (String × FunDef) :=
  match l with
  | [] => [(k, v)]
  | (k', w) :: rest => if k' = k then (k', v) :: rest else (k', w) :: methodSet rest k v

/-- Read an environment from the heap (ids are always in range in reachable
states; the fallback is never hit there). -/
def getEnv (s : State) (id : Nat) : EnvData := s.envs.getD id ⟨[], none⟩

/-- Environment::define: `values[name] = value` in the given environment. -/
def envDefine (s : State) (id : Nat) (name : String) (v : LoxValue) : State :=
  { s with envs := s.envs.set id { getEnv s id with values := mapSet (getEnv s id).values name v } }

/-- Environment::get: the current map, else the enclosing chain, else the
runtime error `Undefined variable 'x'.`  The chain fuel is the heap size plus
one at every call site, which covers any acyclic chain. -/
def envGet : Nat → State → Nat → Token → Except RtError LoxValue
  | 0, _, _, name =>
    .error ⟨name, "Undefined variable '" ++ name.lexeme ++ "'."⟩
  | n + 1, s, id, name =>
    match (getEnv s id).values.lookup name.lexeme with
    | some v => .ok v
    | none =>
      match (getEnv s id).enclosing with
      | some p => envGet n s p name
      | none => .error ⟨name, "Undefined variable '" ++ name.lexeme ++ "'."⟩

/-- Environment::assign: replace in the first environment of the chain that
holds the name, else the runtime error `Undefined variable 'x'.` -/
def envAssign : Nat → State → Nat → Token → LoxValue → Except RtError State
  | 0, _, _, name, _ =>
    .error ⟨name, "Undefined variable '" ++ name.lexeme ++ "'."⟩
  | n + 1, s, id, name, v =>
    if ((getEnv s id).values.lookup name.lexeme).isSome then
      .ok (envDefine s id name.lexeme v)
    else
      match (getEnv s id).enclosing with
      | some p => envAssign n s p name v
      | none => .error ⟨name, "Undefined variable '" ++ name.lexeme ++ "'."⟩

/-- Environment::ancestor: follow exactly `distance` enclosing links.  The C++
dereferences a null enclosing pointer if the chain is too short (undefined
behaviour); that case is `none` here and is unreachable for resolver-produced
distances. -/
def ancestor (s : State) (id : Nat) : Nat → Option Nat
  | 0 => some id
  | d + 1 =>
    match (getEnv s id).enclosing with
    | some p => ancestor s p d
    | none => none

/-- Environment::getAt: `ancestor(distance)->values[name]`.  unordered_map
operator[] value-initializes a missing entry, and a value-initialized
LoxObject is the first variant alternative, LoxNil: a miss silently inserts
and returns nil.  The `none` ancestor case is the C++ null dereference. -/
def envGetAt (s : State) (id : Nat) (d : Nat) (name : String) : LoxValue × State :=
  match ancestor s id d with
  | some a =>
    match (getEnv s a).values.lookup name with
    | some v => (v, s)
    | none => (.nil, envDefine s a name .nil)
  | none => (.nil, s)

/-- Environment::assignAt: `ancestor(distance)->values[name] = value`. -/
def envAssignAt (s : State) (id : Nat) (d : Nat) (name : String) (v : LoxValue) : State :=
  match ancestor s id d with
  | some a => envDefine s a name v
  | none => s

/-- Interpreter::lookUpVariable: distance -1 reads the global environment
(which can raise `Undefined variable`), any other slot value is cast to
unsigned and handed to getAt on the current environment (negative slots other
than -1 would wrap in the C++; they never occur). -/
def lookUpVariable (s : State) (name : Token) (d : Int) : ERes LoxValue :=
  if d = -1 then
    match envGet (s.envs.length + 1) s 0 name with
    | .ok v => .ok v s
    | .error e => .err e s
  else
    let (v, s') := envGetAt s s.envId d.toNat name.lexeme
    .ok v s'

/-- isTruthy (src/Lox/LoxObject.cpp): nil and false are falsy. -/
def isTruthy : LoxValue → Bool
  | .nil => false
  | .bool b => b
  | _ => true

/-- variant operator== on LoxObject.  Callables and instances are shared_ptr
values compared by pointer identity; instance identity is the heap index.  A
by-value model has no pointer identity for callables, so that comparison is
modelled as false (no settled claim compares callables). -/
def loxEq : LoxValue → LoxValue → Bool
  | .nil, .nil => true
  | .str a, .str b => a = b
  | .num a, .num b => a = b
  | .bool a, .bool b => a = b
  | .inst a, .inst b => a = b
  | _, _ => false

/-- Number formatting in to_string (LoxObject.cpp): integral values print with
no fractional part.  No settled claim prints a number. -/
def numToString (q : Rat) : String :=
  if q.den = 1 then toString q.num else toString q

/-- The `callable->name` access in to_string.  LoxCallable has no such member
(the C++ as written does not compile); the model uses the name the value was
created from.  No settled claim prints a callable. -/
def callableName : Callable → String
  | .native _ _ => "clock"
  | .fn f => f.decl.name.lexeme
  | .cls c => c.name

/-- to_string(const LoxObject&) (LoxObject.cpp lines 33-71).  Returns the
result string together with what the visitor itself writes to stdout: the
string case prints `s:` plus the string plus a newline (std::cout) and then
the string again (llvm::outs).  The instance case yields `<NAME instance>`. -/
def to_string (s : State) : LoxValue → String × String
  | .nil => ("nil", "")
  | .str v => (v, "s:" ++ v ++ "\n" ++ v)
  | .num n => (numToString n, "")
  | .bool b => (if b then "true" else "false", "")
  | .callable c => ("<fn " ++ callableName c ++ ">", "")
  | .inst r =>
    ("<" ++ (s.insts.getD r ⟨.mk "" none [], []⟩).klass.name ++ " instance>", "")

/-- The literal visitor of Interpreter::operator()(LiteralExprPtr): nil, bool
and number map to themselves; the string_view alternative becomes a LoxString. -/
def litValue : Lit → LoxValue
  | .lnil => .nil
  | .lstr v => .str v
  | .lnum n => .num n
  | .lbool b => .bool b

/-- Callable arity: NativeFunction carries it, LoxFunction uses its parameter
count, LoxClass uses its initializer's arity or 0 (LoxClass::arity). -/
def arity : Callable → Nat
  | .native a _ => a
  | .fn f => f.decl.params.length
  | .cls c =>
    match findMethod c "init" with
    | some init => init.decl.params.length
    | none => 0

/-- clock() returns wall-clock seconds; real time is not expressible in the
embedding and no settled claim calls a native function, so it yields 0. -/
def nativeImpl : NativeFn → List LoxValue → LoxValue
  | .clock, _ => .num 0

/-- The parameter-binding loop of LoxFunction::operator(): define each
parameter name to the argument at its index.  The C++ indexes `arguments[i]`
for every parameter; the call-site arity check makes both lists equally long,
so the zip is exact there. -/
def bindArgs (f : FunDef) (argv : List LoxValue) : List (String × LoxValue) :=
  (f.decl.params.zip argv).foldl (fun m pa => mapSet m pa.1.lexeme pa.2) []

/-- LoxFunction::bind: a fresh environment enclosing the closure with `this`
bound to the instance, and a copy of the function closing over it. -/
def bindMethod (s : State) (m : FunDef) (ref : Nat) : FunDef × State :=
  ({ m with closure := s.envs.length },
   { s with envs := s.envs ++ [⟨[("this", .inst ref)], some m.closure⟩] })

/-- LoxInstance::get: fields first; otherwise findMethod on the class walks
the superclass chain and a hit is bound to the instance; otherwise the runtime
error `Undefined property 'x'.` -/
def instanceGet (s : State) (ref : Nat) (name : Token) : ERes LoxValue :=
  let inst := s.insts.getD ref ⟨.mk "" none [], []⟩
  match inst.fields.lookup name.lexeme with
  | some v => .ok v s
  | none =>
    match findMethod inst.klass name.lexeme with
    | some m =>
      let (fd, s1) := bindMethod s m ref
      .ok (.callable (.fn fd)) s1
    | none => .err ⟨name, "Undefined property '" ++ name.lexeme ++ "'."⟩ s

/-- LoxInstance::set: `fields[name] = value`. -/
def instSetField (s : State) (ref : Nat) (name : String) (v : LoxValue) : State :=
  match s.insts.get? ref with
  | some inst =>
    { s with insts := s.insts.set ref { inst with fields := mapSet inst.fields name v } }
  | none => s

/-- The binary-operator dispatch of Interpreter::operator()(BinaryExprPtr),
after both operands are evaluated.  PLUS takes two numbers or two strings;
the arithmetic/comparison operators require two numbers (checkNumberOperands);
the equality operators compare via the variant operator==. -/
def evalBinOp (tok : Token) (op : BinaryOp) (l r : LoxValue) :
    Except RtError LoxValue :=
  match op with
  | .PLUS =>
    match l, r with
    | .num a, .num b => .ok (.num (a + b))
    | .str a, .str b => .ok (.str (a ++ b))
    | _, _ => .error ⟨tok, "Operands must be two numbers or two strings."⟩
  | .MINUS =>
    match l, r with
    | .num a, .num b => .ok (.num (a - b))
    | _, _ => .error ⟨tok, "Operands must be numbers."⟩
  | .SLASH =>
    match l, r with
    | .num a, .num b => .ok (.num (a / b))
    | _, _ => .error ⟨tok, "Operands must be numbers."⟩
  | .STAR =>
    match l, r with
    | .num a, .num b => .ok (.num (a * b))
    | _, _ => .error ⟨tok, "Operands must be numbers."⟩
  | .GREATER =>
    match l, r with
    | .num a, .num b => .ok (.bool (b < a))
    | _, _ => .error ⟨tok, "Operands must be numbers."⟩
  | .GREATER_EQUAL =>
    match l, r with
    | .num a, .num b => .ok (.bool (b ≤ a))
    | _, _ => .error ⟨tok, "Operands must be numbers."⟩
  | .LESS =>
    match l, r with
    | .num a, .num b => .ok (.bool (a < b))
    | _, _ => .error ⟨tok, "Operands must be numbers."⟩
  | .LESS_EQUAL =>
    match l, r with
    | .num a, .num b => .ok (.bool (a ≤ b))
    | _, _ => .error ⟨tok, "Operands must be numbers."⟩
  | .BANG_EQUAL => .ok (.bool (!loxEq l r))
  | .EQUAL_EQUAL => .ok (.bool (loxEq l r))

/-- The `super` expression visitor: getAt(distance, "super") must hold the
superclass, getAt(distance - 1, "this") the instance; a method miss raises
`Undefined property` directly followed by the lexeme (no space, quotes or
period in this message, unlike the instance one).  The bad_variant_access
arms are where the C++ std::get would throw; they are unreachable for
resolver-produced programs. -/
def superEval (s : State) (d : Int) (method : Token) : ERes LoxValue :=
  let (sv, s1) := envGetAt s s.envId d.toNat "super"
  match sv with
  | .callable (.cls sc) =>
    let (tv, s2) := envGetAt s1 s1.envId (d - 1).toNat "this"
    match tv with
    | .inst r =>
      match findMethod sc method.lexeme with
      | none => .err ⟨method, "Undefined property" ++ method.lexeme⟩ s2
      | some m =>
        let (fd, s3) := bindMethod s2 m r
        .ok (.callable (.fn fd)) s3
    | _ => .err ⟨method, "std::bad_variant_access"⟩ s2
  | _ => .err ⟨method, "std::bad_variant_access"⟩ s1

mutual

/-- Interpreter::evaluate(const Expr&): dispatch over the expression visitors
(Interpreter.cpp).  The fuel decreases on every recursive call; the settled
claims always run with enough of it. -/
def evalExpr : Nat → Expr → State → ERes LoxValue
  | 0, _, s => .fuelEmpty s
  | n + 1, e, s =>
    match e with
    | .literal v => .ok (litValue v) s
    | .grouping g => evalExpr n g s
    | .unary tok op g =>
      match evalExpr n g s with
      | .ok v s1 =>
        match op with
        | .MINUS =>
          match v with
          | .num q => .ok (.num (-q)) s1
          | _ => .err ⟨tok, "Operand must be a number."⟩ s1
        | .BANG => .ok (.bool (!isTruthy v)) s1
      | r => r
    | .binary l tok op r =>
      match evalExpr n l s with
      | .ok lv s1 =>
        match evalExpr n r s1 with
        | .ok rv s2 =>
          match evalBinOp tok op lv rv with
          | .ok v => .ok v s2
          | .error err => .err err s2
        | r' => r'
      | r' => r'
    | .logical l op r =>
      match evalExpr n l s with
      | .ok left s1 =>
        if op = .OR ∧ isTruthy left then .ok left s1
        else if op = .AND ∧ ¬isTruthy left then .ok left s1
        else evalExpr n r s1
      | r' => r'
    | .varE name d => lookUpVariable s name d
    | .thisE name d => lookUpVariable s name d
    | .assign name d value =>
      match evalExpr n value s with
      | .ok v s1 =>
        if d = -1 then
          match envAssign (s1.envs.length + 1) s1 0 name v with
          | .ok s2 => .ok v s2
          | .error err => .err err s1
        else .ok v (envAssignAt s1 s1.envId d.toNat name.lexeme v)
      | r' => r'
    | .getE obj name =>
      match evalExpr n obj s with
      | .ok v s1 =>
        match v with
        | .inst r => instanceGet s1 r name
        | _ => .err ⟨name, "Only instances have properties."⟩ s1
      | r' => r'
    | .setE obj name value =>
      match evalExpr n obj s with
      | .ok ov s1 =>
        match ov with
        | .inst r =>
          match evalExpr n value s1 with
          | .ok v s2 => .ok v (instSetField s2 r name.lexeme v)
          | r' => r'
        | _ => .err ⟨name, "Only instances have fields."⟩ s1
      | r' => r'
    | .superE _ d method => superEval s d method
    | .call callee kw args =>
      if s.functionDepth > MAX_CALL_DEPTH then
        .err ⟨kw, "Stack overflow."⟩ s
      else
        match evalExpr n callee s with
        | .ok cv s1 =>
          match evalArgs n args s1 with
          | .ok argv s2 =>
            match cv with
            | .callable c =>
              if argv.length ≠ arity c then
                .err ⟨kw, "Expected \x7b\x7d arguments but got \x7b\x7d." ++
                  toString (arity c) ++ toString argv.length⟩ s2
              else
                let s3 := { s2 with functionDepth := s2.functionDepth + 1 }
                match callCallable n c argv s3 with
                | .ok v s4 => .ok v { s4 with functionDepth := s4.functionDepth - 1 }
                | r' => r'
            | _ => .err ⟨kw, "Can only call functions and classes."⟩ s2
          | .err err s2 => .err err s2
          | .fuelEmpty s2 => .fuelEmpty s2
        | r' => r'

/-- The argument loop in the CallExpr visitor: evaluate left to right. -/
def evalArgs : Nat → List Expr → State → ERes (List LoxValue)
  | 0, _, s => .fuelEmpty s
  | n + 1, es, s =>
    match es with
    | [] => .ok [] s
    | e :: rest =>
      match evalExpr n e s with
      | .ok v s1 =>
        match evalArgs n rest s1 with
        | .ok vs s2 => .ok (v :: vs) s2
        | .err err s2 => .err err s2
        | .fuelEmpty s2 => .fuelEmpty s2
      | .err err s1 => .err err s1
      | .fuelEmpty s1 => .fuelEmpty s1

/-- Dispatch on the kind of callable: NativeFunction::operator(),
LoxFunction::operator() and LoxClass::operator().

LoxFunction: a fresh environment over the closure binds parameters to
arguments, then executeBlock runs the body; a Return result yields its value —
except that an initializer always yields getAt(0, "this") on its closure, as
it also does when the body falls off the end (a non-initializer then yields
nil).

LoxClass: create the instance; when findMethod("init") exists, bind it to the
instance and invoke it, discarding its result; return the instance. -/
def callCallable : Nat → Callable → List LoxValue → State → ERes LoxValue
  | 0, _, _, s => .fuelEmpty s
  | n + 1, c, argv, s =>
    match c with
    | .native _ nf => .ok (nativeImpl nf argv) s
    | .fn f =>
      let envId := s.envs.length
      let s1 := { s with envs := s.envs ++ [⟨bindArgs f argv, some f.closure⟩] }
      match executeBlock n f.decl.body envId s1 with
      | .ok r s2 =>
        match r with
        | .retR v =>
          if f.isInitializer then
            let (tv, s3) := envGetAt s2 f.closure 0 "this"
            .ok tv s3
          else .ok v s2
        | _ =>
          if f.isInitializer then
            let (tv, s3) := envGetAt s2 f.closure 0 "this"
            .ok tv s3
          else .ok .nil s2
      | .err err s2 => .err err s2
      | .fuelEmpty s2 => .fuelEmpty s2
    | .cls cv =>
      let ref := s.insts.length
      let s1 := { s with insts := s.insts ++ [⟨cv, []⟩] }
      match findMethod cv "init" with
      | some init =>
        let (bound, s2) := bindMethod s1 init ref
        match callCallable n (.fn bound) argv s2 with
        | .ok _ s3 => .ok (.inst ref) s3
        | .err err s3 => .err err s3
        | .fuelEmpty s3 => .fuelEmpty s3
      | none => .ok (.inst ref) s1

/-- Interpreter::evaluate(const Stmt&): dispatch over the statement visitors. -/
def evalStmt : Nat → Stmt → State → ERes StmtRes
  | 0, _, s => .fuelEmpty s
  | n + 1, st, s =>
    match st with
    | .expression e =>
      match evalExpr n e s with
      | .ok _ s1 => .ok .nothingR s1
      | .err err s1 => .err err s1
      | .fuelEmpty s1 => .fuelEmpty s1
    | .printS e =>
      match evalExpr n e s with
      | .ok v s1 =>
        let (text, side) := to_string s1 v
        .ok .nothingR { s1 with output := s1.output ++ side ++ text ++ "\n" }
      | .err err s1 => .err err s1
      | .fuelEmpty s1 => .fuelEmpty s1
    | .varS name init =>
      match evalExpr n init s with
      | .ok v s1 => .ok .nothingR (envDefine s1 s1.envId name.lexeme v)
      | .err err s1 => .err err s1
      | .fuelEmpty s1 => .fuelEmpty s1
    | .funcS f =>
      .ok .nothingR
        (envDefine s s.envId f.name.lexeme (.callable (.fn ⟨f, s.envId, false⟩)))
    | .returnS _ value =>
      match value with
      | none => .ok (.retR .nil) s
      | some e =>
        match evalExpr n e s with
        | .ok v s1 => .ok (.retR v) s1
        | .err err s1 => .err err s1
        | .fuelEmpty s1 => .fuelEmpty s1
    | .ifS cond thenB elseB =>
      match evalExpr n cond s with
      | .ok v s1 =>
        if isTruthy v then evalStmt n thenB s1
        else
          match elseB with
          | some e => evalStmt n e s1
          | none => .ok .nothingR s1
      | .err err s1 => .err err s1
      | .fuelEmpty s1 => .fuelEmpty s1
    | .whileS cond body => whileEval n cond body s
    | .blockS stmts =>
      let newId := s.envs.length
      let s1 := { s with envs := s.envs ++ [⟨[], some s.envId⟩] }
      executeBlock n stmts newId s1
    | .classS name sup methods =>
      let superRes : ERes (Option LoxClassV) :=
        match sup with
        | none => .ok none s
        | some (supName, d) =>
          match lookUpVariable s supName d with
          | .ok v s1 =>
            match v with
            | .callable (.cls c) => .ok (some c) s1
            | _ => .err ⟨supName, "Superclass must be a class."⟩ s1
          | .err err s1 => .err err s1
          | .fuelEmpty s1 => .fuelEmpty s1
      match superRes with
      | .ok scOpt s1 =>
        let s2 := envDefine s1 s1.envId name.lexeme .nil
        let ms : Nat × State :=
          match scOpt with
          | some sc =>
            (s2.envs.length,
             { s2 with
                envs := s2.envs ++
                  [(⟨[("super", .callable (.cls sc))], some s2.envId⟩ : EnvData)],
                envId := s2.envs.length })
          | none => (s2.envId, s2)
        let methodsClosure := ms.1
        let s3 := ms.2
        let methodTable := methods.foldl
          (fun m (f : FunctionStmt) =>
            methodSet m f.name.lexeme ⟨f, methodsClosure, f.type = .INITIALIZER⟩)
          ([] : List (String × FunDef))
        let s4 :=
          match scOpt with
          | some _ => { s3 with envId := (getEnv s3 s3.envId).enclosing.getD s3.envId }
          | none => s3
        match envAssign (s4.envs.length + 1) s4 s4.envId name
            (.callable (.cls (.mk name.lexeme scOpt methodTable))) with
        | .ok s5 => .ok .nothingR s5
        | .error err => .err err s4
      | .err err s1 => .err err s1
      | .fuelEmpty s1 => .fuelEmpty s1

/-- The WhileStmt visitor: loop while the condition is truthy, forwarding a
Return result out of the body. -/
def whileEval : Nat → Expr → Stmt → State → ERes StmtRes
  | 0, _, _, s => .fuelEmpty s
  | n + 1, cond, body, s =>
    match evalExpr n cond s with
    | .ok v s1 =>
      if isTruthy v then
        match evalStmt n body s1 with
        | .ok r s2 =>
          match r with
          | .retR rv => .ok (.retR rv) s2
          | _ => whileEval n cond body s2
        | .err err s2 => .err err s2
        | .fuelEmpty s2 => .fuelEmpty s2
      else .ok .nothingR s1
    | .err err s1 => .err err s1
    | .fuelEmpty s1 => .fuelEmpty s1

/-- Interpreter::executeBlock: save the current environment, switch to the new
one, and run the statement list. -/
def executeBlock : Nat → List Stmt → Nat → State → ERes StmtRes
  | 0, _, _, s => .fuelEmpty s
  | n + 1, stmts, newEnv, s =>
    blockStmts n stmts s.envId { s with envId := newEnv }

/-- The statement loop of Interpreter::executeBlock.  The previous environment
is restored on normal completion and on a Return result; a thrown
runtime_error propagates out of the loop with NO restore — exactly the C++,
which has no try/finally around this loop. -/
def blockStmts : Nat → List Stmt → Nat → State → ERes StmtRes
  | 0, _, _, s => .fuelEmpty s
  | n + 1, stmts, previous, s =>
    match stmts with
    | [] => .ok .nothingR { s with envId := previous }
    | st :: rest =>
      match evalStmt n st s with
      | .ok r s1 =>
        match r with
        | .retR v => .ok (.retR v) { s1 with envId := previous }
        | _ => blockStmts n rest previous s1
      | .err err s1 => .err err s1
      | .fuelEmpty s1 => .fuelEmpty s1

end

/-- The statement loop of Interpreter::evaluate(const Program&). -/
def evalProgramLoop : Nat → List Stmt → State → ERes Unit
  | 0, _, s => .fuelEmpty s
  | n + 1, stmts, s =>
    match stmts with
    | [] => .ok () s
    | st :: rest =>
      match evalStmt n st s with
      | .ok _ s1 => evalProgramLoop n rest s1
      | .err err s1 => .err err s1
      | .fuelEmpty s1 => .fuelEmpty s1

/-- The interpreter state built by the Interpreter constructor: the global
environment (heap id 0, also the current environment) holding `clock`, depth
counter 0, no instances, nothing printed. -/
def initState : State :=
  { envs := [⟨[("clock", .callable (.native 0 .clock))], none⟩],
    envId := 0, functionDepth := 0, insts := [], output := "" }

/-- Interpreter::evaluate(const Program&): run the statements; a runtime_error
is caught at this level and handed to runtimeError (which sets the
hadRuntimeError flag).  Returns the final state and the caught error. -/
def interpret (fuel : Nat) (prog : Program) (s : State) : State × Option RtError :=
  match evalProgramLoop fuel prog s with
  | .ok _ s' => (s', none)
  | .err e s' => (s', some e)
  | .fuelEmpty s' => (s', none)

end Interp

/-- The driver pipeline of src/main.cpp: scan, parse (exit 65 when the
hadError flag is set, which scan errors also set), resolve (again exit 65 on
hadError), interpret (exit 70 when a runtime error was reported), else exit 0.
Returns the exit code and everything the interpreter wrote to stdout.
A ParseError escaping the parser would abort the C++ process; the model maps
it (and fuel exhaustion, a model artifact) to the compile-error exit. -/
def runSource (fuel : Nat) (src : String) : Nat × String :=
  let (tokens, scanErrs) := Scanner.scanTokens src
  match Parser.parseProgram fuel tokens (!scanErrs.isEmpty) with
  | .ok prog sP =>
    if sP.hadError then (65, "")
    else
      let (prog', sR) := Resolver.resolveProgram fuel prog sP.hadError
      if sR.hadError then (65, "")
      else
        let (sI, errOpt) := Interp.interpret fuel prog' Interp.initState
        (if errOpt.isSome then 70 else 0, sI.output)
  | .thrown _ => (65, "")
  | .fuelEmpty _ => (65, "")

/-- The same pipeline as runSource, exposing the runtime error the interpreter
catches (message and implicated token lexeme), when one is reported. -/
def runtimeErrorOf (fuel : Nat) (src : String) : Option (String × String) :=
  let (tokens, scanErrs) := Scanner.scanTokens src
  match Parser.parseProgram fuel tokens (!scanErrs.isEmpty) with
  | .ok prog sP =>
    if sP.hadError then none
    else
      let (prog', sR) := Resolver.resolveProgram fuel prog sP.hadError
      if sR.hadError then none
      else (Interp.interpret fuel prog' Interp.initState).2.map fun e => (e.msg, e.token.lexeme)
  | .thrown _ => none
  | .fuelEmpty _ => none

/-! Concrete fixtures (tokens, programs and states) used by the theorems. -/

/-- An identifier token for AST-level programs. -/
def tid (s : String) : Token := ⟨.IDENTIFIER, s, .lstr "", 1⟩

/-- The `)` token that finishCall stores as a CallExpr keyword. -/
def rparen : Token := ⟨.RIGHT_PAREN, ")", .lstr "", 1⟩

/-- A `return` keyword token. -/
def tretKw : Token := ⟨.RETURN, "return", .lstr "", 1⟩

/-- Names f1, f2, ... of the call-chain fixture. -/
def chainName (i : Nat) : String := "f" ++ toString i

/-- The k-th function of the call-chain fixture: f1 prints "deep", every
fk (k ≥ 2) just calls f(k-1).  All slots are the global sentinel -1, as the
resolver leaves them for top-level functions. -/
def chainFun : Nat → FunctionStmt
  | 0 => .mk (tid "f0") .FUNCTION [] [.printS (.literal (.lstr "deep"))]
  | 1 => .mk (tid "f1") .FUNCTION [] [.printS (.literal (.lstr "deep"))]
  | i + 2 => .mk (tid (chainName (i + 2))) .FUNCTION []
      [.expression (.call (.varE (tid (chainName (i + 1))) (-1)) rparen [])]

/-- Declare f1 .. fk and call fk(): running it needs k simultaneously active
call frames. -/
def chainProg (k : Nat) : Program :=
  ((List.range k).map fun i => Stmt.funcS (chainFun (i + 1))) ++
  [.expression (.call (.varE (tid (chainName k)) (-1)) rparen [])]

/-- `fun g() { g(); } g();` — unbounded recursion. -/
def selfRecProg : Program :=
  [.funcS (.mk (tid "g") .FUNCTION [] [.expression (.call (.varE (tid "g") (-1)) rparen [])]),
   .expression (.call (.varE (tid "g") (-1)) rparen [])]

/-- `fun h(x) { }` — a user function of declared arity 1. -/
def oneParamFun : FunctionStmt := .mk (tid "h") .FUNCTION [tid "x"] []

/-- Declare h(x) and call h() with zero arguments. -/
def arityMismatchProg : Program :=
  [.funcS oneParamFun, .expression (.call (.varE (tid "h") (-1)) rparen [])]

/-- A class with no methods. -/
def emptyClassB : Interp.LoxClassV := .mk "B" none []

/-- An initializer body that executes a bare `return;`. -/
def bareReturnInit : FunctionStmt := .mk (tid "init") .INITIALIZER [] [.returnS tretKw none]

/-- A class whose init immediately executes `return;` (closure = globals). -/
def classAWithInit : Interp.LoxClassV := .mk "A" none [("init", ⟨bareReturnInit, 0, true⟩)]

/-- An initializer-flagged user function with empty body and closure 0,
for exercising the LoxFunction initializer paths directly. -/
def fallOffInitFn : Interp.FunDef := ⟨.mk (tid "init") .INITIALIZER [] [], 0, true⟩

/-- Observation: is the result a successfully returned instance, and of which
heap cell? -/
def Interp.isInstRes : Interp.ERes Interp.LoxValue → Option Nat
  | .ok (.inst r) _ => some r
  | _ => none

/-- A methodless class named Foo, for print formatting. -/
def fooCls : Interp.LoxClassV := .mk "Foo" none []

/-- Globals hold `o`, an instance of Foo (heap cell 0). -/
def fooState : Interp.State :=
  { Interp.initState with
      envs := [⟨[("clock", .callable (.native 0 .clock)), ("o", .inst 0)], none⟩],
      insts := [⟨fooCls, []⟩] }

/-- An empty method used by the lookup fixtures. -/
def emptyMethod : FunctionStmt := .mk (tid "m") .METHOD [] []

/-- A base class with method `bm`. -/
def baseCls : Interp.LoxClassV := .mk "Base" none [("bm", ⟨emptyMethod, 0, false⟩)]

/-- A subclass of Base with its own method `dm`. -/
def derivCls : Interp.LoxClassV := .mk "Deriv" (some baseCls) [("dm", ⟨emptyMethod, 0, false⟩)]

/-- A state whose instance heap holds one Deriv instance with field fx. -/
def instFixState : Interp.State :=
  { Interp.initState with insts := [⟨derivCls, [("fx", .str "fv")]⟩] }

/-- `{ nox; }` at AST level: a block whose single statement reads the
undefined global nox (slot -1). -/
def undefVarBlockProg : Program := [.blockS [.expression (.varE (tid "nox") (-1))]]

/-- A three-environment chain (globals 0 ← 1 ← 2, current 2) with `x` bound
in environment 1, for the distance-lookup fixtures. -/
def chainState : Interp.State :=
  { Interp.initState with
      envs := [⟨[("clock", .callable (.native 0 .clock))], none⟩,
               ⟨[("x", .str "outerx")], some 0⟩,
               ⟨[], some 1⟩],
      envId := 2 }

/-- `fun p() { print "deep"; }` as a function value closing over globals. -/
def printDeepFn : Interp.FunDef :=
  ⟨.mk (tid "p") .FUNCTION [] [.printS (.literal (.lstr "deep"))], 0, false⟩

/-- A state whose globals bind `p` to printDeepFn, with `d` calls already
active (the call-depth counter at `d`). -/
def depthState (d : Nat) : Interp.State :=
  { Interp.initState with
      envs := [⟨[("clock", .callable (.native 0 .clock)),
                 ("p", .callable (.fn printDeepFn))], none⟩],
      functionDepth := d }

/-- The call expression `p()`. -/
def callPExpr : Expr := .call (.varE (tid "p") (-1)) rparen []

/-- Observation: the thrown runtime error's message and token lexeme, if the
result is an error. -/
def Interp.resErrInfo : Interp.ERes Interp.LoxValue → Option (String × String)
  | .err e _ => some (e.msg, e.token.lexeme)
  | _ => none

/-- Observation: the state carried by an evaluation result. -/
def Interp.resStateOf : Interp.ERes Interp.LoxValue → Interp.State
  | .ok _ s => s
  | .err _ s => s
  | .fuelEmpty s => s

/-- Globals bind `h` to the arity-1 user function oneParamFun. -/
def hState : Interp.State :=
  { Interp.initState with
      envs := [⟨[("clock", .callable (.native 0 .clock)),
                 ("h", .callable (.fn ⟨oneParamFun, 0, false⟩))], none⟩] }

/-- The state after allocating one empty environment over globals. -/
def initPlusEnv : Interp.State :=
  { Interp.initState with envs := Interp.initState.envs ++ [⟨[], some 0⟩] }

open Interp

/-! ### Helper lemmas -/

/-- After mapSet, the key is present with the given value. -/
theorem mapSet_lookup (l : List (String × LoxValue)) (k : String) (v : LoxValue) :
    (mapSet l k v).lookup k = some v := by
  induction l with
  | nil => simp [mapSet]
  | cons p rest ih =>
    by_cases h : p.1 = k
    · simp [mapSet, h, List.lookup]
    · have hb : (k == p.1) = false := beq_eq_false_iff_ne.mpr (Ne.symm h)
      simp only [mapSet]
      rw [if_neg h]
      simp [List.lookup, hb, ih]

/-- List.set really replaces an in-range element, seen through getD. -/
theorem getD_set_self (l : List EnvData) (n : Nat) (x d : EnvData)
    (h : n < l.length) : (l.set n x).getD n d = x := by
  induction l generalizing n with
  | nil => simp at h
  | cons a rest ih =>
    cases n with
    | zero => simp [List.set, List.getD]
    | succ m =>
      simp only [List.set, List.getD_cons_succ]
      exact ih m (by simpa using h)

/-- Environment::get reports no error other than `Undefined variable 'x'.`. -/
theorem envGet_error_msg (n : Nat) :
    ∀ (s : State) (id : Nat) (name : Token) (e : RtError),
      envGet n s id name = .error e →
      e = ⟨name, "Undefined variable '" ++ name.lexeme ++ "'."⟩ := by
  induction n with
  | zero =>
    intro s id name e h
    simpa [envGet] using h.symm
  | succ n ih =>
    intro s id name e h
    simp only [envGet] at h
    cases hl : (getEnv s id).values.lookup name.lexeme with
    | some v => simp [hl] at h
    | none =>
      simp only [hl] at h
      cases he : (getEnv s id).enclosing with
      | some p => simp only [he] at h; exact ih s p name e h
      | none => simpa [he] using h.symm

/-- Every successful run of the executeBlock statement loop ends with the
environment field restored to `previous`. -/
theorem blockStmts_ok_envId (n : Nat) :
    ∀ (stmts : List Stmt) (prev : Nat) (s : State) (r : StmtRes) (s' : State),
      blockStmts n stmts prev s = .ok r s' → s'.envId = prev := by
  induction n with
  | zero => intro stmts prev s r s' h; simp [blockStmts] at h
  | succ n ih =>
    intro stmts prev s r s' h
    cases stmts with
    | nil =>
      simp only [blockStmts] at h
      obtain ⟨-, h2⟩ := (ERes.ok.injEq _ _ _ _).mp h
      rw [← h2]
    | cons st rest =>
      simp only [blockStmts] at h
      cases hst : evalStmt n st s with
      | ok r1 s1 =>
        simp only [hst] at h
        cases r1 with
        | retR v =>
          obtain ⟨-, h2⟩ := (ERes.ok.injEq _ _ _ _).mp h
          rw [← h2]
        | objR v => exact ih rest prev s1 r s' h
        | nothingR => exact ih rest prev s1 r s' h
      | err e s1 => simp [hst] at h
      | fuelEmpty s1 => simp [hst] at h

/-! ### Claim theorems -/

/-- Claim C1 (code bug, evaluated at the failing input): the pipeline on
`print 1 + 2 * 3;` exits 70 with NOTHING on stdout, because the scanner
stores every NUMBER literal as the string_view alternative (the token text),
never as a double; the interpreter therefore sees `2 * 3` applied to two
strings and raises "Operands must be numbers." at the `*` token, instead of
printing `7` as the spec's scenario A requires. -/
theorem C1_example_A_pipeline :
    runSource 10000 "print 1 + 2 * 3;" = (70, "") ∧
    runtimeErrorOf 10000 "print 1 + 2 * 3;" = some ("Operands must be numbers.", "*") ∧
    (Scanner.scanTokens "print 1 + 2 * 3;").1 =
      [⟨.PRINT, "print", .lstr "", 1⟩, ⟨.NUMBER, "1", .lstr "1", 1⟩,
       ⟨.PLUS, "+", .lstr "", 1⟩, ⟨.NUMBER, "2", .lstr "2", 1⟩,
       ⟨.STAR, "*", .lstr "", 1⟩, ⟨.NUMBER, "3", .lstr "3", 1⟩,
       ⟨.SEMICOLON, ";", .lstr "", 1⟩, ⟨.LoxEOF, "", .lstr "", 1⟩] :=
  ⟨by decide, by decide, by decide⟩

/-- Claim C2 (code bug, evaluated at the failing inputs): because scanToken
has a special `case 'o'` that either consumes `or` or drops the `o` outright,
the word `ok` scans to a single identifier token with lexeme `k` (no error is
even reported for the lost `o`), and `orchid` scans to an OR keyword token
followed by an identifier `chid` — not to single identifier tokens `ok` and
`orchid` as the identifier rule promises. -/
theorem C2_scanner_o_words :
    (Scanner.scanTokens "ok").1 =
      [⟨.IDENTIFIER, "k", .lstr "", 1⟩, ⟨.LoxEOF, "", .lstr "", 1⟩] ∧
    (Scanner.scanTokens "ok").2 = [] ∧
    (Scanner.scanTokens "orchid").1 =
      [⟨.OR, "or", .lstr "", 1⟩, ⟨.IDENTIFIER, "chid", .lstr "", 1⟩,
       ⟨.LoxEOF, "", .lstr "", 1⟩] :=
  ⟨by decide, by decide, by decide⟩

/-- Claim C3, counterexample: with 100 calls already active — the claimed
maximum — evaluating the call `p()` (whose frame would be the 101st, hence
"would exceed" a 100-frame bound) raises no error at all: the callee body
runs (the print output appears) and the counter returns to 100.  Only with
101 active calls does the same call raise "Stack overflow.". -/
theorem C3_counterexample :
    resErrInfo (evalExpr 50 callPExpr (depthState 100)) = none ∧
    (resStateOf (evalExpr 50 callPExpr (depthState 100))).output = "s:deep\ndeepdeep\n" ∧
    (resStateOf (evalExpr 50 callPExpr (depthState 100))).functionDepth = 100 ∧
    resErrInfo (evalExpr 50 callPExpr (depthState 101)) = some ("Stack overflow.", ")") :=
  ⟨by decide, by decide, by decide, by decide⟩

/-- Claim C3, amended: a call expression raises "Stack overflow." at the call
site exactly when MORE than MAX_CALL_DEPTH (100) calls are already active
there — the check is `function_depth > MAX_CALL_DEPTH` before entry — so up
to 101 frames can be simultaneously active and the call that would open the
102nd raises the error; at exactly 100 active frames the call still runs. -/
theorem C3_stack_overflow_threshold :
    (∀ (callee : Expr) (kw : Token) (args : List Expr) (s : State) (n : Nat),
        MAX_CALL_DEPTH < s.functionDepth →
        evalExpr (n + 1) (.call callee kw args) s = .err ⟨kw, "Stack overflow."⟩ s) ∧
    resErrInfo (evalExpr 50 callPExpr (depthState 100)) = none ∧
    resErrInfo (evalExpr 50 callPExpr (depthState 101)) = some ("Stack overflow.", ")") := by
  refine ⟨?_, by decide, by decide⟩
  intro callee kw args s n h
  simp [evalExpr, h]

/-- Witness for C3: the general part applied at a concrete state with 101
active calls. -/
theorem C3_stack_overflow_threshold_witness :
    evalExpr 1 (.call (.literal .lnil) rparen []) (depthState 101) =
      .err ⟨rparen, "Stack overflow."⟩ (depthState 101) :=
  C3_stack_overflow_threshold.1 (.literal .lnil) rparen [] (depthState 101) 0 (by decide)

/-- Claim C4 (code bug): when a call's argument count M differs from the
callee's arity N, the interpreter does raise a runtime error before running
the body (the error state is exactly the one after argument evaluation), but
its message is the unsubstituted format string with the numbers appended:
`Expected {} arguments but got {}.` ++ N ++ M — e.g. calling the 1-parameter
function h with no arguments yields `Expected {} arguments but got {}.10`,
not `Expected 1 arguments but got 0.`. -/
theorem C4_arity_error_message :
    (∀ (n : Nat) (callee : Expr) (kw : Token) (args : List Expr) (s : State)
        (c : Callable) (argv : List LoxValue) (s1 s2 : State),
        ¬ MAX_CALL_DEPTH < s.functionDepth →
        evalExpr n callee s = .ok (.callable c) s1 →
        evalArgs n args s1 = .ok argv s2 →
        argv.length ≠ arity c →
        evalExpr (n + 1) (.call callee kw args) s =
          .err ⟨kw, "Expected \x7b\x7d arguments but got \x7b\x7d." ++
            toString (arity c) ++ toString argv.length⟩ s2) ∧
    (interpret 100 arityMismatchProg initState).2.map (fun e => (e.msg, e.token.lexeme)) =
      some ("Expected \x7b\x7d arguments but got \x7b\x7d.10", ")") := by
  refine ⟨?_, by decide⟩
  intro n callee kw args s c argv s1 s2 h0 h1 h2 h3
  simp [evalExpr, h0, h1, h2, h3]

/-- Witness for C4: the general part applied to calling the arity-1 function
h with zero arguments. -/
theorem C4_arity_error_message_witness :
    evalExpr 2 (.call (.varE (tid "h") (-1)) rparen []) hState =
      .err ⟨rparen, "Expected \x7b\x7d arguments but got \x7b\x7d.10"⟩ hState :=
  C4_arity_error_message.1 1 (.varE (tid "h") (-1)) rparen [] hState
    (.fn ⟨oneParamFun, 0, false⟩) [] hState hState (by decide) rfl rfl (by decide)

/-- Claim C5: short-circuit evaluation of LogicalExpr.  When the left
operand's value determines the result (`or` with a truthy left, `and` with a
falsy left), the whole expression yields that operand's value itself with
exactly the state the left operand's evaluation produced — the right operand
is never evaluated; otherwise the whole expression evaluates to whatever the
right operand evaluates to from that state. -/
theorem C5_short_circuit (n : Nat) (a b : Expr) (s : State) (v : LoxValue)
    (s' : State) (h : evalExpr n a s = .ok v s') :
    (isTruthy v = true → evalExpr (n + 1) (.logical a .OR b) s = .ok v s') ∧
    (isTruthy v = false → evalExpr (n + 1) (.logical a .AND b) s = .ok v s') ∧
    (isTruthy v = false → evalExpr (n + 1) (.logical a .OR b) s = evalExpr n b s') ∧
    (isTruthy v = true → evalExpr (n + 1) (.logical a .AND b) s = evalExpr n b s') := by
  refine ⟨?_, ?_, ?_, ?_⟩ <;> intro ht <;> simp [evalExpr, h, ht]

/-- Witness for C5: both short-circuit directions at literal operands. -/
theorem C5_short_circuit_witness :
    evalExpr 2 (.logical (.literal (.lbool true)) .OR (.literal .lnil)) initState =
      .ok (.bool true) initState ∧
    evalExpr 2 (.logical (.literal (.lbool false)) .AND (.literal .lnil)) initState =
      .ok (.bool false) initState :=
  ⟨(C5_short_circuit 1 (.literal (.lbool true)) (.literal .lnil) initState
      (.bool true) initState rfl).1 rfl,
   (C5_short_circuit 1 (.literal (.lbool false)) (.literal .lnil) initState
      (.bool false) initState rfl).2.1 rfl⟩

/-- Claim C6: construction always yields the fresh instance.  (1) whenever a
class call succeeds, its value is the instance allocated at entry (the
initializer's own result is discarded); (2) an initializer-flagged function
call whose body completes — by falling off the end or by any Return,
including the bare `return;` carrier — yields getAt(0, "this") on its
closure, not the body's result; (3) concretely, constructing A, whose init
body is exactly `return;`, yields the instance. -/
theorem C6_construction_returns_instance :
    (∀ (n : Nat) (cv : LoxClassV) (argv : List LoxValue) (s : State)
        (v : LoxValue) (s' : State),
        callCallable (n + 1) (.cls cv) argv s = .ok v s' →
        v = .inst s.insts.length) ∧
    (∀ (n : Nat) (f : FunDef) (argv : List LoxValue) (s : State)
        (r : StmtRes) (s2 : State),
        f.isInitializer = true →
        executeBlock n f.decl.body s.envs.length
            { s with envs := s.envs ++ [⟨bindArgs f argv, some f.closure⟩] } = .ok r s2 →
        callCallable (n + 1) (.fn f) argv s =
          .ok (envGetAt s2 f.closure 0 "this").1 (envGetAt s2 f.closure 0 "this").2) ∧
    isInstRes (callCallable 50 (.cls classAWithInit) [] initState) = some 0 := by
  refine ⟨?_, ?_, by decide⟩
  · intro n cv argv s v s' h
    simp only [callCallable] at h
    cases hf : findMethod cv "init" <;> simp only [hf] at h
    · exact ((ERes.ok.injEq _ _ _ _).mp h).1.symm
    · split at h <;> simp_all
  · intro n f argv s r s2 hinit h
    simp only [callCallable, h, hinit]
    cases r <;> simp

/-- Witness for C6: part 1 at the init-free class B, part 2 at an initializer
with an empty body (falling off the end). -/
theorem C6_construction_returns_instance_witness :
    (LoxValue.inst 0 = .inst initState.insts.length) ∧
    callCallable 3 (.fn fallOffInitFn) [] initState =
      .ok (envGetAt initPlusEnv 0 0 "this").1 (envGetAt initPlusEnv 0 0 "this").2 :=
  ⟨C6_construction_returns_instance.1 0 emptyClassB [] initState (.inst 0)
      { initState with insts := [⟨emptyClassB, []⟩] } rfl,
   C6_construction_returns_instance.2.1 2 fallOffInitFn [] initState .nothingR
      initPlusEnv rfl rfl⟩

/-- Claim C7: property access.  On an instance: a field hit returns the
stored value unchanged; a field miss followed by a findMethod hit returns the
method bound to the instance (a fresh environment with `this` mapped to it);
a double miss raises `Undefined property 'name'.`.  findMethod takes the own
table first and otherwise recurses into the superclass.  A Get whose receiver
is not an instance raises `Only instances have properties.`. -/
theorem C7_property_lookup :
    (∀ (s : State) (ref : Nat) (name : Token) (v : LoxValue),
        (s.insts.getD ref ⟨.mk "" none [], []⟩).fields.lookup name.lexeme = some v →
        instanceGet s ref name = .ok v s) ∧
    (∀ (s : State) (ref : Nat) (name : Token) (m : FunDef),
        (s.insts.getD ref ⟨.mk "" none [], []⟩).fields.lookup name.lexeme = none →
        findMethod (s.insts.getD ref ⟨.mk "" none [], []⟩).klass name.lexeme = some m →
        instanceGet s ref name =
          .ok (.callable (.fn (bindMethod s m ref).1)) (bindMethod s m ref).2) ∧
    (∀ (s : State) (ref : Nat) (name : Token),
        (s.insts.getD ref ⟨.mk "" none [], []⟩).fields.lookup name.lexeme = none →
        findMethod (s.insts.getD ref ⟨.mk "" none [], []⟩).klass name.lexeme = none →
        instanceGet s ref name =
          .err ⟨name, "Undefined property '" ++ name.lexeme ++ "'."⟩ s) ∧
    (∀ (c : LoxClassV) (nm : String) (m : FunDef),
        c.methods.lookup nm = some m → findMethod c nm = some m) ∧
    (∀ (c : LoxClassV) (nm : String) (sc : LoxClassV),
        c.methods.lookup nm = none → c.superclass = some sc →
        findMethod c nm = findMethod sc nm) ∧
    (∀ (n : Nat) (obj : Expr) (name : Token) (s : State) (v : LoxValue) (s1 : State),
        evalExpr n obj s = .ok v s1 →
        (∀ r, v ≠ .inst r) →
        evalExpr (n + 1) (.getE obj name) s =
          .err ⟨name, "Only instances have properties."⟩ s1) := by
  refine ⟨?_, ?_, ?_, ?_, ?_, ?_⟩
  · intro s ref name v h
    simp only [instanceGet, h]
  · intro s ref name m h1 h2
    simp only [instanceGet, h1, h2]
  · intro s ref name h1 h2
    simp only [instanceGet, h1, h2]
  · intro c nm m h
    cases c with
    | mk cn sup ms =>
      simp only [LoxClassV.methods] at h
      cases sup <;> simp [findMethod, h]
  · intro c nm sc h1 h2
    cases c with
    | mk cn sup ms =>
      simp only [LoxClassV.methods] at h1
      simp only [LoxClassV.superclass] at h2
      subst h2
      simp [findMethod, h1]
  · intro n obj name s v s1 h hne
    cases v with
    | inst r => exact absurd rfl (hne r)
    | nil => simp [evalExpr, h]
    | str a => simp [evalExpr, h]
    | num a => simp [evalExpr, h]
    | bool a => simp [evalExpr, h]
    | callable c => simp [evalExpr, h]

/-- Witness for C7: all six parts at the Deriv/Base fixture instance. -/
theorem C7_property_lookup_witness :
    instanceGet instFixState 0 (tid "fx") = .ok (.str "fv") instFixState ∧
    instanceGet instFixState 0 (tid "bm") =
      .ok (.callable (.fn (bindMethod instFixState ⟨emptyMethod, 0, false⟩ 0).1))
        (bindMethod instFixState ⟨emptyMethod, 0, false⟩ 0).2 ∧
    instanceGet instFixState 0 (tid "zz") =
      .err ⟨tid "zz", "Undefined property 'zz'."⟩ instFixState ∧
    findMethod derivCls "dm" = some ⟨emptyMethod, 0, false⟩ ∧
    findMethod derivCls "bm" = findMethod baseCls "bm" ∧
    evalExpr 2 (.getE (.literal (.lstr "x")) (tid "fx")) initState =
      .err ⟨tid "fx", "Only instances have properties."⟩ initState :=
  ⟨C7_property_lookup.1 instFixState 0 (tid "fx") (.str "fv") rfl,
   C7_property_lookup.2.1 instFixState 0 (tid "bm") ⟨emptyMethod, 0, false⟩ rfl rfl,
   C7_property_lookup.2.2.1 instFixState 0 (tid "zz") rfl rfl,
   C7_property_lookup.2.2.2.1 derivCls "dm" ⟨emptyMethod, 0, false⟩ rfl,
   C7_property_lookup.2.2.2.2.1 derivCls "bm" baseCls rfl rfl,
   C7_property_lookup.2.2.2.2.2 1 (.literal (.lstr "x")) (tid "fx") initState
     (.str "x") initState rfl (fun r h => LoxValue.noConfusion h)⟩

/-- Claim C8, counterexample: printing the Foo instance bound to `o` writes
`<Foo instance>` plus a newline — WITH surrounding angle brackets — to
stdout, which differs from the claimed bare `Foo instance` form. -/
theorem C8_counterexample :
    evalStmt 10 (.printS (.varE (tid "o") (-1))) fooState =
      .ok .nothingR { fooState with output := "<Foo instance>\n" } ∧
    ("<Foo instance>\n" : String) ≠ "Foo instance\n" :=
  ⟨rfl, by decide⟩

/-- Claim C8, amended: print of an instance value appends exactly the
to_string text plus one newline to stdout (the instance visitor itself writes
nothing else), and that text is `<` ++ the class name ++ ` instance>` — the
NAME-space-instance form wrapped in angle brackets. -/
theorem C8_instance_print_format :
    (∀ (n : Nat) (e : Expr) (s : State) (r : Nat) (s1 : State),
        evalExpr n e s = .ok (.inst r) s1 →
        evalStmt (n + 1) (.printS e) s =
          .ok .nothingR { s1 with output := s1.output ++ (to_string s1 (.inst r)).2 ++
            (to_string s1 (.inst r)).1 ++ "\n" }) ∧
    (∀ (s : State) (r : Nat),
        to_string s (.inst r) =
          ("<" ++ (s.insts.getD r ⟨.mk "" none [], []⟩).klass.name ++ " instance>", "")) := by
  refine ⟨?_, fun s r => rfl⟩
  intro n e s r s1 h
  simp [evalStmt, h]

/-- Witness for C8: the amended law applied to printing `o` in fooState. -/
theorem C8_instance_print_format_witness :
    evalStmt 2 (.printS (.varE (tid "o") (-1))) fooState =
      .ok .nothingR { fooState with output := fooState.output ++
        (to_string fooState (.inst 0)).2 ++ (to_string fooState (.inst 0)).1 ++ "\n" } :=
  C8_instance_print_format.1 1 (.varE (tid "o") (-1)) fooState 0 fooState rfl

/-- Claim C9, counterexample: running `{ nox; }` raises the undefined-variable
error inside the block, and after the error has propagated to top level the
interpreter's environment field holds 1 — the block environment — not the
global environment 0, because the exception path of executeBlock performs no
restore. -/
theorem C9_counterexample :
    (interpret 50 undefVarBlockProg initState).1.envId = 1 ∧
    initState.envId = 0 ∧
    (interpret 50 undefVarBlockProg initState).2.map (fun e => e.msg) =
      some "Undefined variable 'nox'." :=
  ⟨by decide, by decide, by decide⟩

/-- Claim C9, amended: executeBlock restores the previous environment on every
successful completion (normal or Return), but a runtime error thrown by a
statement of the block propagates with the state exactly as the failing
statement left it — no restore happens on the exception path, so after a
runtime error reaches top level the environment field still holds the
innermost block environment (concretely 1, not the global 0). -/
theorem C9_block_env_restore :
    (∀ (n : Nat) (stmts : List Stmt) (newEnv : Nat) (s : State)
        (r : StmtRes) (s' : State),
        executeBlock n stmts newEnv s = .ok r s' → s'.envId = s.envId) ∧
    (∀ (n : Nat) (st : Stmt) (rest : List Stmt) (prev : Nat) (s : State)
        (e : RtError) (s1 : State),
        evalStmt n st s = .err e s1 →
        blockStmts (n + 1) (st :: rest) prev s = .err e s1) ∧
    (interpret 50 undefVarBlockProg initState).1.envId = 1 := by
  refine ⟨?_, ?_, by decide⟩
  · intro n stmts newEnv s r s' h
    cases n with
    | zero => simp [executeBlock] at h
    | succ n =>
      simp only [executeBlock] at h
      exact blockStmts_ok_envId n stmts s.envId _ r s' h
  · intro n st rest prev s e s1 h
    simp [blockStmts, h]

/-- Witness for C9: the restore law at an empty block over a fresh
environment, and the no-restore law at the failing `nox` statement. -/
theorem C9_block_env_restore_witness :
    initState.envId = initState.envId ∧
    blockStmts 3 [.expression (.varE (tid "nox") (-1))] 0 initState =
      .err ⟨tid "nox", "Undefined variable 'nox'."⟩ initState :=
  ⟨C9_block_env_restore.1 2 [] 1 initState .nothingR initState rfl,
   C9_block_env_restore.2.1 2 (.expression (.varE (tid "nox") (-1))) [] 0 initState
     ⟨tid "nox", "Undefined variable 'nox'."⟩ initState rfl⟩

/-- Claim C10: resolved variable reads.  A slot other than -1 never raises:
lookUpVariable hands the name to getAt on the current environment, which
follows exactly d enclosing links (ancestor) and reads that environment's map
directly; a hit returns the stored value with the state untouched, while a
miss silently INSERTS a nil binding into that very environment and returns
nil.  Conversely every error lookUpVariable can raise comes from the slot
value -1 (the global path) and is the undefined-variable error. -/
theorem C10_resolved_lookup :
    (∀ (s : State) (name : Token) (d : Int),
        d ≠ -1 →
        lookUpVariable s name d =
          .ok (envGetAt s s.envId d.toNat name.lexeme).1
              (envGetAt s s.envId d.toNat name.lexeme).2) ∧
    (∀ (s : State) (id d a : Nat) (nm : String) (v : LoxValue),
        ancestor s id d = some a →
        (getEnv s a).values.lookup nm = some v →
        envGetAt s id d nm = (v, s)) ∧
    (∀ (s : State) (id d a : Nat) (nm : String),
        ancestor s id d = some a →
        (getEnv s a).values.lookup nm = none →
        a < s.envs.length →
        envGetAt s id d nm = (.nil, envDefine s a nm .nil) ∧
        (getEnv (envDefine s a nm .nil) a).values.lookup nm = some .nil) ∧
    (∀ (s : State) (name : Token) (d : Int) (e : RtError) (s' : State),
        lookUpVariable s name d = .err e s' →
        d = -1 ∧ e = ⟨name, "Undefined variable '" ++ name.lexeme ++ "'."⟩) := by
  refine ⟨?_, ?_, ?_, ?_⟩
  · intro s name d hd
    simp [lookUpVariable, hd]
  · intro s id d a nm v h1 h2
    simp [envGetAt, h1, h2]
  · intro s id d a nm h1 h2 ha
    have hg : getEnv (envDefine s a nm .nil) a =
        { getEnv s a with values := mapSet (getEnv s a).values nm .nil } :=
      getD_set_self s.envs a _ ⟨[], none⟩ ha
    refine ⟨by simp [envGetAt, h1, h2], ?_⟩
    rw [hg]
    exact mapSet_lookup _ _ _
  · intro s name d e s' h
    by_cases hd : d = -1
    · subst hd
      have hL : lookUpVariable s name (-1) =
          (match envGet (s.envs.length + 1) s 0 name with
           | .ok v => ERes.ok v s
           | .error e => ERes.err e s) := rfl
      rw [hL] at h
      cases hg : envGet (s.envs.length + 1) s 0 name with
      | ok v => simp [hg] at h
      | error e' =>
        simp only [hg] at h
        obtain ⟨h1, -⟩ := (ERes.err.injEq _ _ _ _).mp h
        exact ⟨rfl, h1 ▸ envGet_error_msg _ s 0 name e' hg⟩
    · simp [lookUpVariable, hd] at h

/-- Witness for C10: the four parts at the three-environment chain fixture
and the undefined global nox. -/
theorem C10_resolved_lookup_witness :
    lookUpVariable chainState (tid "x") 1 =
      .ok (envGetAt chainState chainState.envId (Int.toNat 1) "x").1
          (envGetAt chainState chainState.envId (Int.toNat 1) "x").2 ∧
    envGetAt chainState 2 1 "x" = (.str "outerx", chainState) ∧
    (envGetAt chainState 2 2 "y" = (.nil, envDefine chainState 0 "y" .nil) ∧
      (getEnv (envDefine chainState 0 "y" .nil) 0).values.lookup "y" = some .nil) ∧
    ((-1 : Int) = -1 ∧ (⟨tid "nox", "Undefined variable 'nox'."⟩ : RtError) =
      ⟨tid "nox", "Undefined variable '" ++ (tid "nox").lexeme ++ "'."⟩) :=
  ⟨C10_resolved_lookup.1 chainState (tid "x") 1 (by decide),
   C10_resolved_lookup.2.1 chainState 2 1 1 "x" (.str "outerx") rfl rfl,
   C10_resolved_lookup.2.2.1 chainState 2 2 0 "y" rfl rfl (by decide),
   C10_resolved_lookup.2.2.2 initState (tid "nox") (-1)
     ⟨tid "nox", "Undefined variable 'nox'."⟩ initState rfl⟩

end Lox
